import Mathlib

/-!
# Verification of the Letterboxd scraping pipeline (`src/LetterboxdNew.py`)

A shallow embedding of the parts of `LetterboxdNew.py` that the frozen
claims are about, together with theorems settling each claim.

Modelling conventions:
* Python dicts keyed by strings become insertion-ordered association lists
  (`pyInsert` models `d[k] = v`: assignment to an existing key updates the
  value in place, a new key is appended — exactly CPython's dict order).
* A film record (`FilmRec`) carries the fields built by
  `scrape_film_details` / `create_minimal_film_data`.  Ratings are `Option ℚ`
  (Python `None` / float halves), everything textual is `String`.
* BeautifulSoup is an external library; a parsed document (`Soup`) is
  modelled as a table from CSS-selector strings to the element lists the
  library would return, and an element (`Elem`) carries its text, its
  attributes, its class list and its own selector table.  The repository's
  logic on top of those query results is translated literally.
* `datetime.now().isoformat()` is threaded as an explicit `now : String`
  parameter.
-/

namespace LetterboxdNew

/-! ## Python-dict model -/

/-- Python `d[k] = v` on an insertion-ordered dict: replace the value at the
first (unique) occurrence of `k`, else append `(k, v)` at the end. -/
def pyInsert {α : Type} (d : List (String × α)) (k : String) (v : α) :
    List (String × α) :=
  match d with
  | [] => [(k, v)]
  | (k0, v0) :: t => if k0 = k then (k0, v) :: t else (k0, v0) :: pyInsert t k v

/-- Python `d.get(k)` / `d[k]`: the value at the first occurrence of `k`. -/
def pyLookup {α : Type} (d : List (String × α)) (k : String) : Option α :=
  (d.find? (fun p => p.1 = k)).map (fun p => p.2)

/-- The key list of a dict. -/
def pyKeys {α : Type} (d : List (String × α)) : List String := d.map (fun p => p.1)

/-- The value list of a dict (`d.values()`). -/
def pyValues {α : Type} (d : List (String × α)) : List α := d.map (fun p => p.2)

/-! ## The film record -/

/-- One film record, the dict shape built by `scrape_film_details` and
`create_minimal_film_data` in `src/LetterboxdNew.py`. -/
structure FilmRec where
  url : String
  title : String
  release_date : Option String
  runtime : Option String
  genres : List String
  directors : List String
  actors : List String
  studios : List String
  language : Option String
  country : List String
  writers : List String
  composer : Option String
  cinematographer : Option String
  average_rating : Option String
  description : Option String
  personal_rating : Option ℚ
  scrape_status : String
  last_scraped : String
  deriving DecidableEq, Repr

/-! ## `merge_film_data` (src/LetterboxdNew.py lines 909-919) -/

/-- The sort key of `merge_film_data`'s final `sorted` call:
`key=lambda x: x.get('title', '').lower()` compared with `<=`. -/
def mergeLe (a b : FilmRec) : Prop := a.title.toLower ≤ b.title.toLower

instance : DecidableRel mergeLe := fun a b =>
  inferInstanceAs (Decidable (a.title.toLower ≤ b.title.toLower))

instance : IsTotal FilmRec mergeLe := ⟨fun a b => le_total a.title.toLower b.title.toLower⟩

instance : IsTrans FilmRec mergeLe := ⟨fun _ _ _ h1 h2 => le_trans h1 h2⟩

/-- Fold a record list into a dict keyed by `film['url']`
(`{film['url']: film for film in films}` and the update loop share this). -/
def urlDict (d : List (String × FilmRec)) (films : List FilmRec) :
    List (String × FilmRec) :=
  films.foldl (fun d film => pyInsert d film.url film) d

/-- `merge_film_data(existing_films, new_films)`: build a dict of the existing
films by URL, overwrite/insert each new film by URL, return the values sorted
by lower-cased title.  Python's `sorted` is a stable sort, whose output on a
total preorder is unique among stable sorts, so stable insertion sort models
it exactly. -/
def merge_film_data (existing_films new_films : List FilmRec) : List FilmRec :=
  let films_dict := urlDict (urlDict [] existing_films) new_films
  List.insertionSort mergeLe (pyValues films_dict)

/-! ## Association-list lemmas for the dict model -/

theorem pyLookup_pyInsert {α : Type} (d : List (String × α)) (k k2 : String) (v : α) :
    pyLookup (pyInsert d k v) k2 = if k2 = k then some v else pyLookup d k2 := by
  induction d with
  | nil =>
    by_cases h : k = k2
    · subst h; simp [pyInsert, pyLookup, List.find?]
    · have h2 : ¬ k2 = k := fun hh => h hh.symm
      simp [pyInsert, pyLookup, List.find?, h, h2]
  | cons p t ih =>
    obtain ⟨k0, v0⟩ := p
    by_cases h0 : k0 = k
    · subst h0
      by_cases h : k0 = k2
      · subst h; simp [pyInsert, pyLookup, List.find?_cons]
      · have h2 : ¬ k2 = k0 := fun hh => h hh.symm
        simp [pyInsert, pyLookup, List.find?_cons, h, h2]
    · by_cases h : k0 = k2
      · subst h
        simp [pyInsert, pyLookup, List.find?_cons, h0]
      · simp only [pyInsert, if_neg h0]
        simp only [pyLookup, List.find?_cons, h] at ih ⊢
        simpa [h, pyLookup] using ih

theorem pyKeys_pyInsert {α : Type} (d : List (String × α)) (k : String) (v : α) :
    pyKeys (pyInsert d k v) =
      if k ∈ pyKeys d then pyKeys d else pyKeys d ++ [k] := by
  induction d with
  | nil => simp [pyInsert, pyKeys]
  | cons p t ih =>
    obtain ⟨k0, v0⟩ := p
    by_cases h0 : k0 = k
    · subst h0
      simp [pyInsert, pyKeys]
    · have hne : ¬ k = k0 := fun hh => h0 hh.symm
      simp only [pyInsert, if_neg h0]
      show k0 :: pyKeys (pyInsert t k v) = _
      show _ = if k ∈ k0 :: pyKeys t then k0 :: pyKeys t else (k0 :: pyKeys t) ++ [k]
      rw [ih]
      by_cases hm : k ∈ pyKeys t
      · rw [if_pos hm, if_pos (List.mem_cons_of_mem _ hm)]
      · have hnc : ¬ k ∈ k0 :: pyKeys t := by
          intro hc
          rcases List.mem_cons.mp hc with hc | hc
          · exact hne hc
          · exact hm hc
        rw [if_neg hm, if_neg hnc]
        rfl

theorem nodup_pyKeys_pyInsert {α : Type} {d : List (String × α)} (k : String) (v : α)
    (h : (pyKeys d).Nodup) : (pyKeys (pyInsert d k v)).Nodup := by
  rw [pyKeys_pyInsert]
  by_cases hm : k ∈ pyKeys d
  · simpa [hm] using h
  · simpa [hm, List.nodup_append] using h

theorem pyInsert_of_not_mem {α : Type} {d : List (String × α)} {k : String} (v : α)
    (h : k ∉ pyKeys d) : pyInsert d k v = d ++ [(k, v)] := by
  induction d with
  | nil => simp [pyInsert]
  | cons p t ih =>
    obtain ⟨k0, v0⟩ := p
    have h0 : ¬ k0 = k := by
      intro hh
      exact h (by simp [pyKeys, hh])
    have ht : k ∉ pyKeys t := by
      intro hh
      exact h (by simp [pyKeys] at hh ⊢; exact Or.inr hh)
    simp [pyInsert, h0, ih ht]

/-- The keyed-entry invariant: every stored pair of a `urlDict` has
`value.url = key`. -/
theorem urlDict_keyed (films : List FilmRec) :
    ∀ d : List (String × FilmRec), (∀ p ∈ d, p.2.url = p.1) →
      ∀ p ∈ urlDict d films, p.2.url = p.1 := by
  induction films with
  | nil => intro d hd p hp; exact hd p hp
  | cons f fs ih =>
    intro d hd p hp
    refine ih (pyInsert d f.url f) ?_ p hp
    intro q hq
    clear hp ih
    induction d with
    | nil =>
      simp [pyInsert] at hq
      simp [hq]
    | cons e t ihd =>
      obtain ⟨k0, v0⟩ := e
      by_cases h0 : k0 = f.url
      · subst h0
        simp [pyInsert] at hq
        rcases hq with hq | hq
        · simp [hq]
        · exact hd q (List.mem_cons_of_mem _ hq)
      · simp [pyInsert, h0] at hq
        rcases hq with hq | hq
        · exact hd q (by simp [hq])
        · exact ihd (fun r hr => hd r (List.mem_cons_of_mem _ hr)) hq

theorem urlDict_append (d : List (String × FilmRec)) (l1 l2 : List FilmRec) :
    urlDict d (l1 ++ l2) = urlDict (urlDict d l1) l2 := by
  simp [urlDict, List.foldl_append]

/-- The value a `urlDict` holds for a key is the *last* film of the fold with
that url, falling back to the start dict. -/
theorem pyLookup_urlDict (films : List FilmRec) :
    ∀ (d : List (String × FilmRec)) (k : String),
      pyLookup (urlDict d films) k =
        (films.reverse.find? (fun f => f.url = k)).or (pyLookup d k) := by
  induction films with
  | nil => intro d k; simp [urlDict]
  | cons f fs ih =>
    intro d k
    have step : urlDict d (f :: fs) = urlDict (pyInsert d f.url f) fs := rfl
    rw [step, ih, List.reverse_cons, List.find?_append, pyLookup_pyInsert]
    by_cases hfk : f.url = k
    · subst hfk
      cases hfind : List.find? (fun g => g.url = f.url) fs.reverse with
      | none => simp [List.find?, Option.or]
      | some g => simp [List.find?, Option.or]
    · have h2 : ¬ k = f.url := fun hh => hfk hh.symm
      cases hfind : List.find? (fun g => g.url = k) fs.reverse with
      | none => simp [List.find?, Option.or, hfk, h2]
      | some g => simp [List.find?, Option.or, hfk, h2]

theorem mem_pyKeys_urlDict (films : List FilmRec) :
    ∀ (d : List (String × FilmRec)) (k : String),
      k ∈ pyKeys (urlDict d films) ↔ k ∈ pyKeys d ∨ k ∈ films.map (fun f => f.url) := by
  induction films with
  | nil => intro d k; simp [urlDict]
  | cons f fs ih =>
    intro d k
    have step : urlDict d (f :: fs) = urlDict (pyInsert d f.url f) fs := rfl
    rw [step, ih]
    rw [pyKeys_pyInsert]
    by_cases hm : f.url ∈ pyKeys d
    · simp only [if_pos hm, List.map_cons, List.mem_cons]
      constructor
      · rintro (h | h)
        · exact Or.inl h
        · exact Or.inr (Or.inr h)
      · rintro (h | h | h)
        · exact Or.inl h
        · exact Or.inl (h ▸ hm)
        · exact Or.inr h
    · simp only [if_neg hm, List.map_cons, List.mem_cons, List.mem_append,
        List.mem_singleton]
      tauto

theorem nodup_pyKeys_urlDict (films : List FilmRec) :
    ∀ d : List (String × FilmRec), (pyKeys d).Nodup →
      (pyKeys (urlDict d films)).Nodup := by
  induction films with
  | nil => intro d hd; exact hd
  | cons f fs ih =>
    intro d hd
    exact ih (pyInsert d f.url f) (nodup_pyKeys_pyInsert f.url f hd)

theorem urlDict_of_disjoint (films : List FilmRec) :
    ∀ d : List (String × FilmRec),
      (∀ f ∈ films, f.url ∉ pyKeys d) → (films.map (fun f => f.url)).Nodup →
      urlDict d films = d ++ films.map (fun f => (f.url, f)) := by
  induction films with
  | nil => intro d _ _; simp [urlDict]
  | cons f fs ih =>
    intro d hdisj hnd
    have hnd0 := List.nodup_cons.mp
      (show (f.url :: fs.map (fun g => g.url)).Nodup from hnd)
    have hnd1 : f.url ∉ fs.map (fun g => g.url) := hnd0.1
    have hnd2 : (fs.map (fun g => g.url)).Nodup := hnd0.2
    have step : urlDict d (f :: fs) = urlDict (pyInsert d f.url f) fs := rfl
    have hins : pyInsert d f.url f = d ++ [(f.url, f)] :=
      pyInsert_of_not_mem f (hdisj f (by simp))
    have hdisj2 : ∀ g ∈ fs, g.url ∉ pyKeys (d ++ [(f.url, f)]) := by
      intro g hg hmem
      have hkeys : pyKeys (d ++ [(f.url, f)]) = pyKeys d ++ [f.url] := by
        simp [pyKeys]
      rw [hkeys, List.mem_append, List.mem_singleton] at hmem
      rcases hmem with hmem | hmem
      · exact hdisj g (List.mem_cons_of_mem _ hg) hmem
      · exact hnd1 (hmem ▸ List.mem_map_of_mem (fun g => g.url) hg)
    rw [step, hins, ih (d ++ [(f.url, f)]) hdisj2 hnd2]
    simp

theorem pyLookup_map_pair (l : List FilmRec) (k : String) :
    pyLookup (l.map (fun f => (f.url, f))) k = l.find? (fun f => f.url = k) := by
  induction l with
  | nil => simp [pyLookup]
  | cons f fs ih =>
    simp only [List.map_cons]
    by_cases h : f.url = k
    · rw [show pyLookup ((f.url, f) :: fs.map (fun f => (f.url, f))) k = some f from by
        unfold pyLookup
        rw [List.find?_cons_of_pos _ (by simpa using h)]
        rfl]
      rw [List.find?_cons_of_pos _ (by simpa using h)]
    · rw [show pyLookup ((f.url, f) :: fs.map (fun f => (f.url, f))) k
          = pyLookup (fs.map (fun f => (f.url, f))) k from by
        unfold pyLookup
        rw [List.find?_cons_of_neg _ (by simpa using h)]]
      rw [List.find?_cons_of_neg _ (by simpa using h)]
      exact ih

/-- In a list whose urls are distinct, `find?` by url returns the unique
member with that url. -/
theorem find?_of_nodup_urls {l : List FilmRec} {v : FilmRec}
    (hnd : (l.map (fun f => f.url)).Nodup) (hv : v ∈ l) (k : String)
    (hk : v.url = k) : l.find? (fun f => f.url = k) = some v := by
  induction l with
  | nil => simp at hv
  | cons f fs ih =>
    have hnd0 := List.nodup_cons.mp
      (show (f.url :: fs.map (fun g => g.url)).Nodup from hnd)
    rcases List.mem_cons.mp hv with hv | hv
    · subst hv
      simp [List.find?_cons, hk]
    · have hf : ¬ f.url = k := by
        intro hh
        apply hnd0.1
        have hvm : v.url ∈ fs.map (fun g => g.url) :=
          List.mem_map_of_mem (fun g => g.url) hv
        rw [hh]
        rw [hk] at hvm
        exact hvm
      simp [List.find?_cons, hf, ih hnd0.2 hv]

theorem pyLookup_some_mem {α : Type} {d : List (String × α)} {k : String} {v : α}
    (h : pyLookup d k = some v) : (k, v) ∈ d := by
  unfold pyLookup at h
  cases hf : d.find? (fun p => p.1 = k) with
  | none => rw [hf] at h; simp at h
  | some p =>
    rw [hf] at h
    simp at h
    have hp := List.find?_some hf
    have hm := List.mem_of_find?_eq_some hf
    have hk : p.1 = k := by simpa using hp
    obtain ⟨p1, p2⟩ := p
    simp at hk h
    rw [← hk, ← h]
    exact hm

/-- Two dicts with the same (duplicate-free) key order and the same lookups
are equal. -/
theorem assoc_ext {α : Type} :
    ∀ (d1 d2 : List (String × α)), pyKeys d1 = pyKeys d2 → (pyKeys d1).Nodup →
      (∀ k, pyLookup d1 k = pyLookup d2 k) → d1 = d2 := by
  intro d1
  induction d1 with
  | nil =>
    intro d2 hk _ _
    cases d2 with
    | nil => rfl
    | cons p t => simp [pyKeys] at hk
  | cons p t ih =>
    intro d2 hk hnd hl
    obtain ⟨k0, v0⟩ := p
    cases d2 with
    | nil => simp [pyKeys] at hk
    | cons q s =>
      obtain ⟨k1, v1⟩ := q
      have hkeys : k0 = k1 ∧ pyKeys t = pyKeys s := by
        simpa [pyKeys] using hk
      obtain ⟨hkey, htail⟩ := hkeys
      subst hkey
      have hhead : v0 = v1 := by
        have := hl k0
        simpa [pyLookup, List.find?_cons] using this
      subst hhead
      have hnd0 := List.nodup_cons.mp (show (k0 :: pyKeys t).Nodup from hnd)
      refine congrArg _ (ih s htail hnd0.2 ?_)
      intro k
      by_cases hkk : k = k0
      · subst hkk
        have h1 : pyLookup t k = none := by
          have hn : List.find? (fun p => p.1 = k) t = none := by
            rw [List.find?_eq_none]
            intro p hp
            simp only [decide_eq_true_eq]
            intro hpk
            exact hnd0.1 (hpk ▸ List.mem_map_of_mem (fun p => p.1) hp)
          simp [pyLookup, hn]
        have h2 : pyLookup s k = none := by
          have hn : List.find? (fun p => p.1 = k) s = none := by
            rw [List.find?_eq_none]
            intro p hp
            simp only [decide_eq_true_eq]
            intro hpk
            apply hnd0.1
            rw [show pyKeys t = pyKeys s from htail]
            exact hpk ▸ List.mem_map_of_mem (fun p => p.1) hp
          simp [pyLookup, hn]
        rw [h1, h2]
      · have := hl k
        have hne : ¬ k0 = k := fun hh => hkk hh.symm
        simpa [pyLookup, List.find?_cons, hne] using this

theorem pyKeys_urlDict_of_subset (N : List FilmRec) :
    ∀ d : List (String × FilmRec), (∀ f ∈ N, f.url ∈ pyKeys d) →
      pyKeys (urlDict d N) = pyKeys d := by
  induction N with
  | nil => intro d _; rfl
  | cons f fs ih =>
    intro d hmem
    have step : urlDict d (f :: fs) = urlDict (pyInsert d f.url f) fs := rfl
    have hkeys : pyKeys (pyInsert d f.url f) = pyKeys d := by
      rw [pyKeys_pyInsert, if_pos (hmem f (by simp))]
    rw [step, ih (pyInsert d f.url f) ?_, hkeys]
    intro g hg
    rw [hkeys]
    exact hmem g (List.mem_cons_of_mem _ hg)

/-- Updating a well-formed dict with a batch whose every url is already a key,
with the value the dict already holds for the batch's last film per url,
changes nothing. -/
theorem urlDict_self {d : List (String × FilmRec)} {N : List FilmRec}
    (hnd : (pyKeys d).Nodup)
    (hmem : ∀ f ∈ N, f.url ∈ pyKeys d)
    (hval : ∀ k, k ∈ N.map (fun f => f.url) →
      pyLookup d k = N.reverse.find? (fun g => g.url = k)) :
    urlDict d N = d := by
  apply assoc_ext
  · exact pyKeys_urlDict_of_subset N d hmem
  · rw [pyKeys_urlDict_of_subset N d hmem]; exact hnd
  · intro k
    rw [pyLookup_urlDict]
    cases hfind : N.reverse.find? (fun g => g.url = k) with
    | none => simp [Option.or]
    | some w =>
      have hwk : w.url = k := by simpa using List.find?_some hfind
      have hkN : k ∈ N.map (fun f => f.url) := by
        have hwm : w ∈ N := by
          have := List.mem_of_find?_eq_some hfind
          exact List.mem_reverse.mp this
        exact hwk ▸ List.mem_map_of_mem (fun f => f.url) hwm
      rw [show (some w).or (pyLookup d k) = some w from rfl]
      rw [hval k hkN, hfind]

theorem pyKeys_map_pair (l : List FilmRec) :
    pyKeys (l.map (fun f => (f.url, f))) = l.map (fun f => f.url) := by
  simp [pyKeys, List.map_map]

theorem pyValues_map_pair (l : List FilmRec) :
    pyValues (l.map (fun f => (f.url, f))) = l := by
  unfold pyValues
  rw [List.map_map]
  rw [List.map_congr_left (l := l) (fun f _ => rfl :
    ∀ f ∈ l, ((fun p => p.2) ∘ fun f => (f.url, f)) f = id f)]
  exact List.map_id l

theorem pyKeys_eq_map_url_pyValues {d : List (String × FilmRec)}
    (hkeyed : ∀ p ∈ d, p.2.url = p.1) :
    pyKeys d = (pyValues d).map (fun f => f.url) := by
  unfold pyKeys pyValues
  rw [List.map_map]
  exact (List.map_congr_left (fun p hp => (hkeyed p hp).symm))

theorem mem_pyValues_of_pyLookup {d : List (String × FilmRec)} {k : String}
    {v : FilmRec} (h : pyLookup d k = some v) : v ∈ pyValues d := by
  have := pyLookup_some_mem h
  unfold pyValues
  exact List.mem_map_of_mem (fun p => p.2) this

/-! ## Claim C2: idempotence of the merge -/

/-- C2: merging the same new-record batch into a store twice yields the same
final store as merging it once — for every existing store `E` and batch `N`,
`merge_film_data(merge_film_data(E, N), N) = merge_film_data(E, N)`. -/
theorem spec_C2_merge_idempotent (E N : List FilmRec) :
    merge_film_data (merge_film_data E N) N = merge_film_data E N := by
  have hDapp : urlDict (urlDict [] E) N = urlDict [] (E ++ N) :=
    (urlDict_append [] E N).symm
  have hkeyed : ∀ p ∈ urlDict [] (E ++ N), p.2.url = p.1 :=
    urlDict_keyed (E ++ N) [] (fun p hp => absurd hp (List.not_mem_nil p))
  have hndD : (pyKeys (urlDict [] (E ++ N))).Nodup :=
    nodup_pyKeys_urlDict (E ++ N) [] List.nodup_nil
  have hmerge : merge_film_data E N
      = List.insertionSort mergeLe (pyValues (urlDict [] (E ++ N))) := by
    unfold merge_film_data
    rw [hDapp]
  have hMperm : List.Perm (List.insertionSort mergeLe (pyValues (urlDict [] (E ++ N))))
      (pyValues (urlDict [] (E ++ N))) := List.perm_insertionSort _ _
  have hndM : ((merge_film_data E N).map (fun f => f.url)).Nodup := by
    rw [hmerge]
    have hpm := hMperm.map (fun f => f.url)
    rw [hpm.nodup_iff]
    rw [← pyKeys_eq_map_url_pyValues hkeyed]
    exact hndD
  have hdict : urlDict [] (merge_film_data E N)
      = (merge_film_data E N).map (fun f => (f.url, f)) := by
    have h := urlDict_of_disjoint (merge_film_data E N) []
      (fun f _ h => absurd h (by simp [pyKeys])) hndM
    simpa using h
  have hmemD : ∀ f ∈ N, f.url ∈ pyKeys (urlDict [] (E ++ N)) := by
    intro f hf
    rw [mem_pyKeys_urlDict]
    exact Or.inr (List.mem_map_of_mem _ (List.mem_append_right E hf))
  have hmemM : ∀ f ∈ N, f.url ∈ (merge_film_data E N).map (fun g => g.url) := by
    intro f hf
    rw [hmerge]
    have hpm := hMperm.map (fun g => g.url)
    rw [hpm.mem_iff]
    rw [← pyKeys_eq_map_url_pyValues hkeyed]
    exact hmemD f hf
  have hval : ∀ k, k ∈ N.map (fun f => f.url) →
      pyLookup ((merge_film_data E N).map (fun f => (f.url, f))) k
        = N.reverse.find? (fun g => g.url = k) := by
    intro k hk
    have hfindN : ∃ w, N.reverse.find? (fun g => g.url = k) = some w := by
      rcases List.mem_map.mp hk with ⟨f, hf, hfk⟩
      have hs : (N.reverse.find? (fun g => g.url = k)).isSome := by
        rw [List.find?_isSome]
        exact ⟨f, List.mem_reverse.mpr hf, by simpa using hfk⟩
      exact Option.isSome_iff_exists.mp hs
    rcases hfindN with ⟨w, hw⟩
    have hwk : w.url = k := by simpa using List.find?_some hw
    have hlookD : pyLookup (urlDict [] (E ++ N)) k = some w := by
      rw [pyLookup_urlDict, List.reverse_append, List.find?_append, hw]
      rfl
    have hwv : w ∈ pyValues (urlDict [] (E ++ N)) := mem_pyValues_of_pyLookup hlookD
    have hwM : w ∈ merge_film_data E N := by
      rw [hmerge]; exact hMperm.mem_iff.mpr hwv
    rw [pyLookup_map_pair]
    rw [find?_of_nodup_urls hndM hwM k hwk, hw]
  have hself : urlDict ((merge_film_data E N).map (fun f => (f.url, f))) N
      = (merge_film_data E N).map (fun f => (f.url, f)) := by
    apply urlDict_self
    · rw [pyKeys_map_pair]; exact hndM
    · intro f hf; rw [pyKeys_map_pair]; exact hmemM f hf
    · exact hval
  show List.insertionSort mergeLe
      (pyValues (urlDict (urlDict [] (merge_film_data E N)) N)) = merge_film_data E N
  rw [hdict, hself, pyValues_map_pair, hmerge]
  exact List.Sorted.insertionSort_eq (List.sorted_insertionSort mergeLe _)

/-! ## Claim C5: the merged store's per-url invariants -/

theorem merge_helper_facts (E N : List FilmRec) :
    (∀ p ∈ urlDict [] (E ++ N), p.2.url = p.1) ∧
    (pyKeys (urlDict [] (E ++ N))).Nodup ∧
    merge_film_data E N
      = List.insertionSort mergeLe (pyValues (urlDict [] (E ++ N))) := by
  refine ⟨urlDict_keyed (E ++ N) [] (fun p hp => absurd hp (List.not_mem_nil p)),
    nodup_pyKeys_urlDict (E ++ N) [] List.nodup_nil, ?_⟩
  unfold merge_film_data
  rw [urlDict_append]

/-- C5: for every existing store `E` (one record per url) and batch `N`, the
merged output has exactly one record per url of `E ∪ N`: its url list is
duplicate-free, a url is in the output iff it is in `E` or in `N` (so no
record is deleted), and every record of `E` whose url does not occur in `N`
appears in the output unchanged. -/
theorem spec_C5_merge_store_invariants (E N : List FilmRec)
    (hndE : (E.map (fun f => f.url)).Nodup) :
    ((merge_film_data E N).map (fun f => f.url)).Nodup ∧
    (∀ k, k ∈ (merge_film_data E N).map (fun f => f.url) ↔
      k ∈ E.map (fun f => f.url) ∨ k ∈ N.map (fun f => f.url)) ∧
    (∀ r ∈ E, r.url ∉ N.map (fun f => f.url) → r ∈ merge_film_data E N) := by
  obtain ⟨hkeyed, hndD, hmerge⟩ := merge_helper_facts E N
  have hMperm : List.Perm (merge_film_data E N) (pyValues (urlDict [] (E ++ N))) := by
    rw [hmerge]; exact List.perm_insertionSort _ _
  have hpm := hMperm.map (fun f => f.url)
  have hkeysvals := pyKeys_eq_map_url_pyValues hkeyed
  refine ⟨?_, ?_, ?_⟩
  · rw [hpm.nodup_iff, ← hkeysvals]
    exact hndD
  · intro k
    rw [hpm.mem_iff, ← hkeysvals, mem_pyKeys_urlDict]
    simp [pyKeys]
  · intro r hr hnotin
    have hdictE : urlDict [] E = E.map (fun f => (f.url, f)) := by
      have h := urlDict_of_disjoint E [] (fun f _ h => absurd h (by simp [pyKeys])) hndE
      simpa using h
    have hlookE : pyLookup (urlDict [] E) r.url = some r := by
      rw [hdictE, pyLookup_map_pair]
      exact find?_of_nodup_urls hndE hr r.url rfl
    have hfindN : N.reverse.find? (fun g => g.url = r.url) = none := by
      rw [List.find?_eq_none]
      intro g hg
      simp only [decide_eq_true_eq]
      intro hgk
      exact hnotin (hgk ▸ List.mem_map_of_mem (fun f => f.url) (List.mem_reverse.mp hg))
    have hlookD : pyLookup (urlDict (urlDict [] E) N) r.url = some r := by
      rw [pyLookup_urlDict, hfindN, hlookE]
      rfl
    have hrD : r ∈ pyValues (urlDict (urlDict [] E) N) := mem_pyValues_of_pyLookup hlookD
    rw [hmerge, List.mem_insertionSort, urlDict_append]
    exact hrD

/-! ## Catalogue entries and `scrape_all_films` (lines 623-721) -/

/-- A catalogue-listing entry as produced by `parse_films_from_html` inside
`collect_all_films`: title, url and the inline personal rating. -/
structure CatFilm where
  title : String
  url : String
  personal_rating : Option ℚ
  deriving DecidableEq, Repr

/-- The `personal_ratings_map` dict comprehension of `scrape_all_films`:
`{film['url']: film.get('personal_rating') for film in all_films if ... film.get('url')}`. -/
def personalRatingsMap (all_films : List CatFilm) : List (String × Option ℚ) :=
  (all_films.filter (fun film => film.url ≠ "")).foldl
    (fun d film => pyInsert d film.url film.personal_rating) []

/-- `valid_films` filtering plus the `films_to_process` slice of
`scrape_all_films`. -/
def filmsToProcess (all_films : List CatFilm) (start_index : Nat)
    (max_films : Option Nat) : List CatFilm :=
  let valid_films := all_films.filter
    (fun film => film.url ≠ "" ∧ film.url ≠ "None")
  match max_films with
  | some m => (valid_films.drop start_index).take m
  | none => valid_films.drop start_index

/-- `FilmScraper.scrape_all_films` (lines 623-721), data-flow part: scrape
each processed film's url, then merge the catalogue's personal ratings back
into the scraped records by url.  The network and concurrency machinery is
abstracted into `scrape` (the per-url detail scrape); the parallel modes
return a permutation of the sequential results, and the per-record
merge-back below is order-independent. -/
def scrape_all_films (scrape : String → FilmRec) (all_films : List CatFilm)
    (start_index : Nat) (max_films : Option Nat) : List FilmRec :=
  ((filmsToProcess all_films start_index max_films).map
      (fun film => scrape film.url)).map
    (fun film =>
      match pyLookup (personalRatingsMap all_films) film.url with
      | some pr => { film with personal_rating := pr }
      | none => film)

/-! ## Claim C1: personal-rating carry-over -/

/-- An all-empty record, base value for concrete test records. -/
def baseRec : FilmRec :=
  { url := "", title := "", release_date := none, runtime := none, genres := [],
    directors := [], actors := [], studios := [], language := none, country := [],
    writers := [], composer := none, cinematographer := none, average_rating := none,
    description := none, personal_rating := none, scrape_status := "success",
    last_scraped := "" }

/-- Existing store record for url `alpha` with personal rating 4.5. -/
def rec_alpha_old : FilmRec :=
  { baseRec with
    url := "https://letterboxd.com/film/alpha/", title := "Alpha",
    personal_rating := some (9/2) }

/-- Freshly scraped record for the same url, personal rating null. -/
def rec_alpha_new : FilmRec :=
  { baseRec with
    url := "https://letterboxd.com/film/alpha/", title := "Alpha",
    personal_rating := none }

/-- C1 counterexample: `merge_film_data` overwrites wholesale by url, so an
existing record's `personal_rating = 4.5` is NOT retained when the new batch
holds a record for the same url with `personal_rating = null` — the merged
store's record for that url has `personal_rating = null`. -/
theorem spec_C1_counterexample :
    rec_alpha_old.personal_rating = some (9/2) ∧
    rec_alpha_new.personal_rating = none ∧
    rec_alpha_new.url = rec_alpha_old.url ∧
    merge_film_data [rec_alpha_old] [rec_alpha_new] = [rec_alpha_new] :=
  ⟨rfl, rfl, rfl, rfl⟩

/-- C1 amended: the carry-over that the code actually implements lives in
`scrape_all_films`, not in `merge_film_data`: every scraped record is
re-stamped with the personal rating the *catalogue batch* holds for its url,
so a rating known from the catalogue scan survives detail re-scraping (the
detail scrape always yields `personal_rating = null`).  A rating present only
in the previously persisted store is not retained by the merge. -/
theorem spec_C1_amended (scrape : String → FilmRec) (all_films : List CatFilm)
    (start_index : Nat) (max_films : Option Nat) (u : String) (q : ℚ)
    (hmap : pyLookup (personalRatingsMap all_films) u = some (some q)) :
    ∀ r ∈ scrape_all_films scrape all_films start_index max_films,
      r.url = u → r.personal_rating = some q := by
  intro r hr hru
  unfold scrape_all_films at hr
  rw [List.mem_map] at hr
  obtain ⟨f0, _, hstamp⟩ := hr
  cases hl : pyLookup (personalRatingsMap all_films) f0.url with
  | none =>
    rw [hl] at hstamp
    simp only at hstamp
    subst hstamp
    rw [hru] at hl
    rw [hmap] at hl
    exact absurd hl (by simp)
  | some pr =>
    rw [hl] at hstamp
    simp only at hstamp
    subst hstamp
    have hfu : f0.url = u := hru
    rw [hfu, hmap] at hl
    have hpr : pr = some q := by
      have := hl
      injection this with h
      exact h.symm
    simp [hpr]

/-- Concrete catalogue batch: one film with inline personal rating 4.5. -/
def cat_alpha : CatFilm :=
  { title := "Alpha", url := "https://letterboxd.com/film/alpha/",
    personal_rating := some (9/2) }

/-- A detail scrape that knows no personal rating (as detail pages never do). -/
def scrape_alpha : String → FilmRec := fun u => { baseRec with url := u, title := "Alpha" }

theorem spec_C1_amended_witness :
    pyLookup (personalRatingsMap [cat_alpha]) "https://letterboxd.com/film/alpha/"
      = some (some (9/2)) ∧
    rec_alpha_old ∈ scrape_all_films scrape_alpha [cat_alpha] 0 none ∧
    rec_alpha_old.personal_rating = some (9/2) :=
  ⟨rfl, by constructor,
    spec_C1_amended scrape_alpha [cat_alpha] 0 none
      "https://letterboxd.com/film/alpha/" (9/2) rfl rec_alpha_old
      (by constructor) rfl⟩

/-- Existing store record for url `beta`, untouched by the new batch. -/
def rec_beta : FilmRec :=
  { baseRec with
    url := "https://letterboxd.com/film/beta/", title := "Beta" }

theorem spec_C5_witness :
    (([rec_beta].map (fun f => f.url)).Nodup) ∧
    ((merge_film_data [rec_beta] [rec_alpha_new]).map (fun f => f.url)).Nodup ∧
    ("https://letterboxd.com/film/beta/"
        ∈ (merge_film_data [rec_beta] [rec_alpha_new]).map (fun f => f.url) ↔
      "https://letterboxd.com/film/beta/" ∈ [rec_beta].map (fun f => f.url) ∨
      "https://letterboxd.com/film/beta/" ∈ [rec_alpha_new].map (fun f => f.url)) ∧
    rec_beta ∈ merge_film_data [rec_beta] [rec_alpha_new] := by
  have h := spec_C5_merge_store_invariants [rec_beta] [rec_alpha_new] (by decide)
  exact ⟨by decide, h.1, h.2.1 "https://letterboxd.com/film/beta/",
    h.2.2 rec_beta (by decide) (by decide)⟩

/-! ## Executable Python string semantics

Core `String` functions (`trim`, `toLower`, `splitOn`, `replace`,
`startsWith`, ...) are implemented with well-founded loops that the kernel
cannot evaluate, so the Python string operations the source uses are given
here as structurally recursive definitions on `String.data`.  Semantics
follow CPython on the ASCII inputs the scraper handles. -/

/-- Python `s.startswith(pre)`. -/
def pyStartsWith (s pre : String) : Bool := pre.data.isPrefixOf s.data

/-- Python `s.endswith(suf)`. -/
def pyEndsWith (s suf : String) : Bool := suf.data.isSuffixOf s.data

/-- Whether `needle` occurs contiguously inside the char list. -/
def infixOfAux (needle : List Char) : List Char → Bool
  | [] => needle.isEmpty
  | x :: xs => needle.isPrefixOf (x :: xs) || infixOfAux needle xs

/-- Python `needle in hay` (contiguous substring test). -/
def pyIn (needle hay : String) : Bool := infixOfAux needle.data hay.data

/-- Python `c in s` for a single character. -/
def pyHasChar (s : String) (c : Char) : Bool := s.data.contains c

/-- Python `s.strip()` on a char list. -/
def pyStripChars (cs : List Char) : List Char :=
  ((cs.dropWhile Char.isWhitespace).reverse.dropWhile Char.isWhitespace).reverse

/-- Python `s.strip()`. -/
def pyStrip (s : String) : String := ⟨pyStripChars s.data⟩

/-- Python `s.lower()` (ASCII). -/
def pyLower (s : String) : String := ⟨s.data.map Char.toLower⟩

/-- Splitting on a single character, Python `s.split(c)` (keeps empty parts). -/
def splitCharAux (c : Char) : List Char → List Char → List (List Char)
  | [], acc => [acc.reverse]
  | x :: xs, acc =>
    if x = c then acc.reverse :: splitCharAux c xs []
    else splitCharAux c xs (x :: acc)

/-- Python `s.split(c)` for a one-character separator. -/
def pySplitChar (s : String) (c : Char) : List String :=
  (splitCharAux c s.data []).map (fun l => ⟨l⟩)

/-- The part of `s` before the first occurrence of `sep` (the whole of `s`
when `sep` does not occur): Python `s.split(sep)[0]` for nonempty `sep`. -/
def beforeFirstAux (sep : List Char) : List Char → List Char
  | [] => []
  | x :: xs => if sep.isPrefixOf (x :: xs) then [] else x :: beforeFirstAux sep xs

/-- Python `s.split(sep)[0]`. -/
def pyBeforeFirst (s sep : String) : String := ⟨beforeFirstAux sep.data s.data⟩

/-- Python `s.replace(pat, rep)` (all occurrences, left to right), by fuel so
that the kernel can evaluate it; the fuel `cs.length` suffices because every
step consumes at least one character. -/
def replaceAux (pat rep : List Char) : Nat → List Char → List Char
  | 0, cs => cs
  | fuel + 1, cs =>
    match cs with
    | [] => []
    | x :: xs =>
      if pat.isPrefixOf cs then rep ++ replaceAux pat rep fuel (cs.drop pat.length)
      else x :: replaceAux pat rep fuel xs

/-- Python `s.replace(pat, rep)` for nonempty `pat` (the source only replaces
nonempty patterns). -/
def pyReplace (s pat rep : String) : String :=
  if pat.data.isEmpty then s
  else ⟨replaceAux pat.data rep.data s.data.length s.data⟩

/-- All-digit char list to its numeric value, else `none`. -/
def digitsToNat (cs : List Char) : Option Nat :=
  if cs.isEmpty then none
  else if cs.all Char.isDigit then
    some (cs.foldl (fun n c => n * 10 + (c.toNat - 48)) 0)
  else none

/-- Python `int(s)`: optional surrounding whitespace, optional sign, digits. -/
def pyInt? (s : String) : Option Int :=
  match pyStripChars s.data with
  | '-' :: rest => (digitsToNat rest).map (fun n => -(n : Int))
  | '+' :: rest => (digitsToNat rest).map (fun n => (n : Int))
  | t => (digitsToNat t).map (fun n => (n : Int))

/-- Python `str.title()`: the first cased letter of every run of letters is
upper-cased, the rest lower-cased (ASCII letters). -/
def titleCaseAux : Bool → List Char → List Char
  | _, [] => []
  | prevCased, c :: cs =>
    if c.isAlpha then
      (if prevCased then c.toLower else c.toUpper) :: titleCaseAux true cs
    else c :: titleCaseAux false cs

/-- Python `s.title()`. -/
def pyTitleCase (s : String) : String := ⟨titleCaseAux false s.data⟩

/-- Python `c.isprintable()` restricted to the ASCII control range: true for
every character except the C0 controls and DEL (non-ASCII characters on the
scraped pages are printable). -/
def pyIsPrintable (c : Char) : Bool := decide (32 ≤ c.toNat ∧ c.toNat ≠ 127)

/-! ## Claim C3: `FilmScraper.get_page_content` (lines 158-185) -/

/-- The three acquisition backends, in the source's preference order:
pooled scripted browser (Playwright), ad hoc scripted browser (Selenium),
lightweight HTTP client (requests). -/
inductive Backend where
  | pw
  | sel
  | req
  deriving DecidableEq, Repr

/-- The scraper configuration bits `get_page_content` consults:
`self.use_playwright` / `self._pw_browser`, `self.use_selenium` / `self.browser`. -/
structure FetchCfg where
  use_playwright : Bool
  pw_browser : Bool
  use_selenium : Bool
  browser : Bool
  deriving DecidableEq, Repr

/-- Result of one backend invocation that may raise: `ok html` or a raised
exception `exn msg`.  `_get_content_playwright` catches its own exceptions
and returns `None`/html instead, so it is modelled `Nat → Option String`
(indexed by attempt number); Selenium and requests can raise. -/
inductive FetchRes where
  | ok (html : String)
  | exn (msg : String)
  deriving DecidableEq, Repr

/-- One iteration of the `for attempt in range(retries)` body of
`get_page_content`: returns `(Sum.inl html)` on a `return`, `(Sum.inr msg)`
when the body raises, together with the backends invoked, in order.
Mirrors the source: Playwright first when enabled (its falsy result —
`None` or empty — falls through), then Selenium when enabled (its result is
returned as is, its exception aborts the attempt), else requests. -/
def attemptOnce (cfg : FetchCfg) (pw : Nat → Option String)
    (sel req : Nat → FetchRes) (n : Nat) : (String ⊕ String) × List Backend :=
  let pwStep : Option String × List Backend :=
    if cfg.use_playwright ∧ cfg.pw_browser then
      match pw n with
      | some content => if content ≠ "" then (some content, [Backend.pw]) else (none, [Backend.pw])
      | none => (none, [Backend.pw])
    else (none, [])
  match pwStep with
  | (some content, tr) => (Sum.inl content, tr)
  | (none, tr) =>
    if cfg.use_selenium ∧ cfg.browser then
      match sel n with
      | FetchRes.ok html => (Sum.inl html, tr ++ [Backend.sel])
      | FetchRes.exn e => (Sum.inr e, tr ++ [Backend.sel])
    else
      match req n with
      | FetchRes.ok html => (Sum.inl html, tr ++ [Backend.req])
      | FetchRes.exn e => (Sum.inr e, tr ++ [Backend.req])

/-- The retry loop of `get_page_content`, instrumented with the trace of
backend invocations.  `attempts` is the remaining list of attempt indices
(`range(retries)`); on an exception the loop sleeps and retries unless this
was the last attempt, in which case it returns `None`. -/
def getPageLoop (cfg : FetchCfg) (pw : Nat → Option String)
    (sel req : Nat → FetchRes) : List Nat → Option String × List Backend
  | [] => (none, [])
  | n :: rest =>
    match attemptOnce cfg pw sel req n with
    | (Sum.inl content, tr) => (some content, tr)
    | (Sum.inr _, tr) =>
      if rest.isEmpty then (none, tr)
      else
        let r := getPageLoop cfg pw sel req rest
        (r.1, tr ++ r.2)

/-- `FilmScraper.get_page_content(url, retries=3)` with the backend
behaviours abstracted as functions of the attempt number, instrumented with
the backend-invocation trace.  Invalid input short-circuits to `None` with
no backend touched. -/
def get_page_content (cfg : FetchCfg) (pw : Nat → Option String)
    (sel req : Nat → FetchRes) (url : String) (retries : Nat) :
    Option String × List Backend :=
  if url = "" ∨ url = "None" then (none, [])
  else if ¬ (pyStartsWith url "http://" ∨ pyStartsWith url "https://") then (none, [])
  else getPageLoop cfg pw sel req (List.range retries)

/-- All four backend-availability flags set, as in the default configuration
(`use_playwright=True` with a live Playwright browser, `use_selenium=True`
with a live Selenium browser). -/
def cfgFull : FetchCfg :=
  { use_playwright := true, pw_browser := true, use_selenium := true, browser := true }

/-- A pooled-browser fetch that fails (returns no content) on every attempt. -/
def pwAlwaysFails : Nat → Option String := fun _ => none

/-- An ad hoc browser fetch that raises on every attempt. -/
def selAlwaysRaises : Nat → FetchRes := fun _ => FetchRes.exn "timeout"

/-- A lightweight HTTP fetch that would succeed on every attempt. -/
def reqAlwaysOk : Nat → FetchRes := fun _ => FetchRes.ok "<html>ok</html>"

/-- C3 counterexample: with all backends enabled, the pooled scripted-browser
failing every attempt and the ad hoc scripted-browser raising every attempt,
`get_page_content` returns a terminal failure after its three attempts while
the lightweight HTTP backend — which would have succeeded — was never
invoked.  So a terminal failure is NOT only returned after every backend has
been tried, and the fallback chain stops at the ad hoc browser. -/
theorem spec_C3_counterexample :
    (get_page_content cfgFull pwAlwaysFails selAlwaysRaises reqAlwaysOk
        "https://letterboxd.com/film/x/" 3).1 = none ∧
    Backend.req ∉ (get_page_content cfgFull pwAlwaysFails selAlwaysRaises reqAlwaysOk
        "https://letterboxd.com/film/x/" 3).2 ∧
    reqAlwaysOk 0 = FetchRes.ok "<html>ok</html>" := by
  refine ⟨rfl, by decide, rfl⟩

theorem getPageLoop_pw_sel_fail (pw : Nat → Option String) (sel req : Nat → FetchRes)
    (hpw : ∀ n, pw n = none) (hsel : ∀ n, ∃ e, sel n = FetchRes.exn e) :
    ∀ attempts : List Nat, attempts ≠ [] →
      getPageLoop cfgFull pw sel req attempts
        = (none, attempts.flatMap (fun _ => [Backend.pw, Backend.sel])) := by
  intro attempts
  induction attempts with
  | nil => intro h; exact absurd rfl h
  | cons n rest ih =>
    intro _
    obtain ⟨e, he⟩ := hsel n
    have hstep : attemptOnce cfgFull pw sel req n
        = (Sum.inr e, [Backend.pw, Backend.sel]) := by
      simp [attemptOnce, cfgFull, hpw n, he]
    rw [show getPageLoop cfgFull pw sel req (n :: rest)
        = (match attemptOnce cfgFull pw sel req n with
          | (Sum.inl content, tr) => (some content, tr)
          | (Sum.inr _, tr) =>
            if rest.isEmpty then (none, tr)
            else
              let r := getPageLoop cfgFull pw sel req rest
              (r.1, tr ++ r.2)) from rfl]
    rw [hstep]
    cases rest with
    | nil => simp
    | cons m ms =>
      have hne : (m :: ms : List Nat) ≠ [] := by simp
      simp only [List.isEmpty_cons, ih hne]
      simp

/-- C3 amended: with all backends enabled, if the pooled scripted-browser
(preferred backend) fails on every attempt, the next backend in the
preference order — the ad hoc scripted-browser — IS invoked within each
attempt before the fetch is declared failed; but if that backend raises on
every attempt, the terminal failure is returned after `retries` attempts
with the lightweight HTTP backend never invoked.  A terminal failure
therefore does not imply that every backend was tried: the HTTP client is
reached only when the scripted browsers are disabled or unavailable. -/
theorem spec_C3_amended (pw : Nat → Option String) (sel req : Nat → FetchRes)
    (url : String) (retries : Nat)
    (hurl : url ≠ "" ∧ url ≠ "None" ∧
      (pyStartsWith url "http://" = true ∨ pyStartsWith url "https://" = true))
    (hpw : ∀ n, pw n = none) (hsel : ∀ n, ∃ e, sel n = FetchRes.exn e)
    (hr : 0 < retries) :
    (get_page_content cfgFull pw sel req url retries).1 = none ∧
    (get_page_content cfgFull pw sel req url retries).2
      = (List.range retries).flatMap (fun _ => [Backend.pw, Backend.sel]) ∧
    Backend.req ∉ (get_page_content cfgFull pw sel req url retries).2 := by
  have h1 : ¬ (url = "" ∨ url = "None") := by
    rintro (h | h)
    · exact hurl.1 h
    · exact hurl.2.1 h
  have h2 : ¬ ¬ (pyStartsWith url "http://" = true ∨ pyStartsWith url "https://" = true) :=
    not_not_intro hurl.2.2
  have hne : (List.range retries) ≠ [] := by
    simp only [ne_eq, List.range_eq_nil]
    omega
  have hloop := getPageLoop_pw_sel_fail pw sel req hpw hsel (List.range retries) hne
  unfold get_page_content
  rw [if_neg h1, if_neg h2, hloop]
  refine ⟨rfl, rfl, ?_⟩
  simp only [List.mem_flatMap]
  rintro ⟨a, _, hmem⟩
  simp at hmem

theorem spec_C3_amended_witness :
    (get_page_content cfgFull pwAlwaysFails selAlwaysRaises reqAlwaysOk
        "https://letterboxd.com/film/x/" 3).1 = none ∧
    (get_page_content cfgFull pwAlwaysFails selAlwaysRaises reqAlwaysOk
        "https://letterboxd.com/film/x/" 3).2
      = (List.range 3).flatMap (fun _ => [Backend.pw, Backend.sel]) ∧
    Backend.req ∉ (get_page_content cfgFull pwAlwaysFails selAlwaysRaises reqAlwaysOk
        "https://letterboxd.com/film/x/" 3).2 :=
  spec_C3_amended pwAlwaysFails selAlwaysRaises reqAlwaysOk
    "https://letterboxd.com/film/x/" 3
    ⟨by decide, by decide, Or.inr (by decide)⟩
    (fun _ => rfl) (fun _ => ⟨"timeout", rfl⟩) (by decide)

/-! ## The BeautifulSoup document model

BeautifulSoup is an external library: a parsed element is modelled by the
answers the library gives to the queries the source performs on it — its
`get_text()`, its attribute dict, its class list, and a table from
CSS-selector strings to the element lists `select` returns.  A parsed
document (`Soup`) likewise carries a selector table plus the few non-`select`
queries the source makes of it. -/

inductive Elem where
  | node (text : String) (attrs : List (String × String)) (classes : List String)
      (sub : List (String × List Elem))

/-- `elem.get_text()`. -/
def Elem.textOf : Elem → String
  | .node t _ _ _ => t

/-- The attribute dict of the element. -/
def Elem.attrsOf : Elem → List (String × String)
  | .node _ a _ _ => a

/-- `elem.get('class', [])` (bs4 returns the class list). -/
def Elem.classesOf : Elem → List String
  | .node _ _ c _ => c

/-- The element's selector table. -/
def Elem.subOf : Elem → List (String × List Elem)
  | .node _ _ _ s => s

/-- `elem.get(key)`: the attribute's value, `None` when absent. -/
def Elem.get (e : Elem) (k : String) : Option String :=
  (e.attrsOf.find? (fun p => p.1 = k)).map (fun p => p.2)

/-- `elem.select(q)`. -/
def Elem.select (e : Elem) (q : String) : List Elem :=
  match e.subOf.find? (fun p => p.1 = q) with
  | some p => p.2
  | none => []

/-- `elem.select_one(q)`. -/
def Elem.selectOne (e : Elem) (q : String) : Option Elem := (e.select q).head?

structure Soup where
  /-- The selector table: `soup.select(q)` for each query the code makes. -/
  table : List (String × List Elem)
  /-- `soup.get_text()`. -/
  text : String
  /-- `soup.find("time", {"class": "u-slug", "datetime": True})`. -/
  timeSlug : Option Elem
  /-- Per `<script type="application/ld+json">` tag, in document order: the
  `aggregateRating.ratingValue` as the string the code builds, or `none`
  when the tag's body fails to parse or carries no truthy rating (the
  `json.loads` pipeline is the json library's work). -/
  ldjsonRatings : List (Option String)
  /-- `soup.find('meta', property='letterboxd:average_rating').get('content')`,
  `none` when the tag or its attribute is absent. -/
  metaAvgRating : Option String

/-- `soup.select(q)`. -/
def Soup.select (s : Soup) (q : String) : List Elem :=
  match s.table.find? (fun p => p.1 = q) with
  | some p => p.2
  | none => []

/-- `soup.select_one(q)`. -/
def Soup.selectOne (s : Soup) (q : String) : Option Elem := (s.select q).head?

/-- The shared accumulation loop of the list-field extractors: visit each
link in order, strip its text, and append it to the accumulator exactly when
the field's guard accepts it there. -/
def collectLoop (keep : String → List String → Prop)
    [inst : ∀ s acc, Decidable (keep s acc)] (links : List Elem)
    (acc : List String) : List String :=
  links.foldl
    (fun acc link =>
      let s := pyStrip link.textOf
      if keep s acc then acc ++ [s] else acc)
    acc

/-! ## The field extractors (lines 328-594) -/

/-- `FilmScraper._remove_year_from_title`:
`re.sub(r'\s*\(\d{4}\)\s*$', '', title).strip()`. -/
def remove_year_from_title (title : String) : String :=
  let r := title.data.reverse.dropWhile Char.isWhitespace
  match r with
  | ')' :: d1 :: d2 :: d3 :: d4 :: '(' :: rest =>
    if d1.isDigit && d2.isDigit && d3.isDigit && d4.isDigit then
      pyStrip ⟨(rest.dropWhile Char.isWhitespace).reverse⟩
    else pyStrip title
  | _ => pyStrip title

/-- `FilmScraper.extract_title` (lines 328-368): page `<title>` first, then a
selector cascade, then any plausible `h1`, else the placeholder. -/
def extract_title (soup : Soup) : String :=
  let fromPageTitle : Option String :=
    match soup.selectOne "title" with
    | some page_title =>
      let full_title := pyStrip page_title.textOf
      if pyIn " directed by " full_title ∧ pyIn "• Letterboxd" full_title then
        let film_title := pyStrip (pyBeforeFirst full_title " directed by ")
        let film_title := pyStrip ⟨film_title.data.filter pyIsPrintable⟩
        if film_title ≠ "" ∧ film_title ≠ "Letterboxd" then
          some (remove_year_from_title film_title)
        else none
      else if pyIn " • Letterboxd" full_title then
        let film_title := pyStrip (pyBeforeFirst full_title " • Letterboxd")
        if film_title ≠ "" ∧ film_title ≠ "Letterboxd" then
          some (remove_year_from_title film_title)
        else none
      else none
    | none => none
  match fromPageTitle with
  | some t => t
  | none =>
    match ["h1.headline-1.filmtitle", "h1.filmtitle", "section.film-header h1",
        ".film-header h1", "h1.headline-1"].findSome?
        (fun sel =>
          match soup.selectOne sel with
          | some elem =>
            let title := pyStrip elem.textOf
            if title ≠ "" ∧ title ≠ "Letterboxd — Your life in film" ∧ 1 < title.length then
              some (remove_year_from_title title)
            else none
          | none => none) with
    | some t => t
    | none =>
      match (soup.select "h1").findSome?
          (fun h1 =>
            let title := pyStrip h1.textOf
            if title ≠ "" ∧ title ≠ "Letterboxd — Your life in film" ∧
                ¬ pyIn "Add" title = true ∧ ¬ pyIn "to lists" title = true ∧
                3 < title.length then
              some (remove_year_from_title title)
            else none) with
      | some t => t
      | none => "Unknown Title"

/-- Word characters of the `\b` regex class. -/
def isWordChar (c : Char) : Bool := c.isAlphanum || c == '_'

/-- `re.search(r'\b(19|20)\d{2}\b', text)`: the leftmost 19xx/20xx
four-digit run bounded by non-word characters, as `extract_release_date`'s
final fallback uses it. -/
def findYearAux : Option Char → List Char → Option String
  | prev, a :: b :: c :: d :: rest =>
    if (match prev with | some p => ! isWordChar p | none => true) &&
        ((a == '1' && b == '9') || (a == '2' && b == '0')) &&
        c.isDigit && d.isDigit &&
        (match rest with | e :: _ => ! isWordChar e | [] => true) then
      some ⟨[a, b, c, d]⟩
    else findYearAux (some a) (b :: c :: d :: rest)
  | _, _ => none

/-- `FilmScraper.extract_release_date` (lines 374-395). -/
def extract_release_date (soup : Soup) : Option String :=
  match ["div.releaseyear a", ".releaseyear", "small.number a",
      "[href*='/films/year/']"].findSome?
      (fun sel =>
        match soup.selectOne sel with
        | some elem =>
          let year := pyStrip elem.textOf
          if year ≠ "" ∧ year.data.all Char.isDigit then some year else none
        | none => none) with
  | some y => some y
  | none => findYearAux none soup.text.data

/-- Match `\d+\s*mins` at the head of the char list (no backtracking is
needed: after fewer than the maximal digits the next char is a digit, which
can match neither `\s` nor `m`).  `ci` is `re.IGNORECASE`. -/
def matchMins (ci : Bool) (cs : List Char) : Option (List Char) :=
  let digits := cs.takeWhile Char.isDigit
  if digits.isEmpty then none
  else
    let rest1 := cs.drop digits.length
    let ws := rest1.takeWhile Char.isWhitespace
    let rest2 := rest1.drop ws.length
    let lit := rest2.take 4
    if (if ci then lit.map Char.toLower else lit) = ['m', 'i', 'n', 's'] then
      some (digits ++ ws ++ lit)
    else none

/-- `re.search(r'(\d+)\s*mins', ...)`, leftmost match, `group(0)`. -/
def searchMins (ci : Bool) : List Char → Option String
  | [] => none
  | c :: cs =>
    match matchMins ci (c :: cs) with
    | some m => some ⟨m⟩
    | none => searchMins ci cs

/-- `FilmScraper.extract_runtime` (lines 397-421). -/
def extract_runtime (soup : Soup) : Option String :=
  match soup.timeSlug with
  | some time_elem => some (pyStrip time_elem.textOf)
  | none =>
    match ["a[href*='/runtime/']", ".film-facts .text-slug",
        ".film-facts .runtime"].findSome?
        (fun sel =>
          match soup.selectOne sel with
          | some elem => searchMins false (pyStrip elem.textOf).data
          | none => none) with
    | some m => some m
    | none => searchMins true soup.text.data

/-- `FilmScraper.extract_genres` (lines 424-440). -/
def extract_genres (soup : Soup) : List String :=
  (["div#tab-genres a[href*='/films/genre/']", "a[href*='/films/genre/']",
    ".text-slug[href*='/genre/']"].foldl
    (fun genres sel =>
      collectLoop
        (fun genre genres => genre ≠ "" ∧ 1 < genre.length ∧ genre ∉ genres)
        (soup.select sel) genres)
    []).take 10

/-- `FilmScraper.extract_directors` (lines 442-458). -/
def extract_directors (soup : Soup) : List String :=
  (["a[href*='/director/']", "a[href*='/person/'][title*='Director']",
    ".text-slug[href*='/director/']"].foldl
    (fun directors sel =>
      collectLoop (fun director directors => director ≠ "" ∧ director ∉ directors)
        ((soup.select sel).take 2) directors)
    []).take 2

/-- The link list `extract_actors` iterates: the cast section's anchors when
one exists, else the page-wide actor/person links, both capped at 10. -/
def actor_links (soup : Soup) : List Elem :=
  match soup.selectOne "div#tab-cast, .cast-list" with
  | some cast_section => (cast_section.select "a").take 10
  | none => (soup.select "a[href*='/actor/'], a[href*='/person/']").take 10

/-- `FilmScraper.extract_actors` (lines 460-475). -/
def extract_actors (soup : Soup) : List String :=
  (collectLoop
    (fun actor actors => actor ≠ "" ∧ 1 < actor.length ∧ actor ∉ actors)
    (actor_links soup) []).take 10

/-- `FilmScraper.extract_studios` (lines 477-487). -/
def extract_studios (soup : Soup) : List String :=
  collectLoop (fun studio studios => studio ≠ "" ∧ studio ∉ studios)
    (soup.select "a[href*='/films/studio/'], a[href*='/studio/']") []

/-- `FilmScraper.extract_language` (lines 489-492). -/
def extract_language (soup : Soup) : Option String :=
  match soup.selectOne "a[href*='/films/language/'], a[href*='/language/']" with
  | some link => some (pyStrip link.textOf)
  | none => none

/-- `FilmScraper.extract_country` (lines 494-504). -/
def extract_country (soup : Soup) : List String :=
  collectLoop
    (fun country countries =>
      country ≠ "" ∧ country ∉ countries ∧ 2 < country.length ∧ country ≠ "Country")
    (soup.select "a[href*='/films/country/'], a[href*='/country/']") []

/-- `FilmScraper.extract_writers` (lines 506-516): only the first two writer
links, each appended when nonempty — note: no duplicate check. -/
def extract_writers (soup : Soup) : List String :=
  collectLoop (fun writer _ => writer ≠ "")
    ((soup.select "a[href*='/writer/']").take 2) []

/-- `FilmScraper.extract_composer` (lines 518-521). -/
def extract_composer (soup : Soup) : Option String :=
  match soup.selectOne "a[href*='/composer/']" with
  | some link => some (pyStrip link.textOf)
  | none => none

/-- `FilmScraper.extract_cinematographer` (lines 523-526). -/
def extract_cinematographer (soup : Soup) : Option String :=
  match soup.selectOne "a[href*='/cinematography/']" with
  | some link => some (pyStrip link.textOf)
  | none => none

/-- Match `\d+(?:\.\d+)?` at the head of the char list. -/
def matchNumber (cs : List Char) : Option (List Char) :=
  let digits := cs.takeWhile Char.isDigit
  if digits.isEmpty then none
  else
    match cs.drop digits.length with
    | '.' :: rest2 =>
      let frac := rest2.takeWhile Char.isDigit
      if frac.isEmpty then some digits else some (digits ++ '.' :: frac)
    | _ => some digits

/-- `re.search(r'(\d+(?:\.\d+)?)', ...)`, leftmost match, `group(1)`. -/
def searchNumber : List Char → Option String
  | [] => none
  | c :: cs =>
    match matchNumber (c :: cs) with
    | some m => some ⟨m⟩
    | none => searchNumber cs

/-- `FilmScraper.extract_average_rating` (lines 528-576): the JSON-LD
`aggregateRating` values first (`Soup.ldjsonRatings` holds the per-script
outcome of the `json.loads` pipeline), then the CSS cascade
(attribute before text), then the page-wide meta tag. -/
def extract_average_rating (soup : Soup) : Option String :=
  match soup.ldjsonRatings.findSome? id with
  | some rating => some rating
  | none =>
    match [".average-rating .rating", ".film-stats .rating",
        ".rating .average-rating", "[data-average-rating]", ".average-rating",
        ".film-poster[data-average-rating]"].findSome?
        (fun sel =>
          match soup.selectOne sel with
          | some elem =>
            match elem.get "data-average-rating" with
            | some avg =>
              if avg ≠ "" then some avg
              else searchNumber (pyStrip elem.textOf).data
            | none => searchNumber (pyStrip elem.textOf).data
          | none => none) with
    | some r => some r
    | none =>
      match soup.metaAvgRating with
      | some content => if content ≠ "" then some content else none
      | none => none

/-- The truncation of `extract_description`:
`desc[:500] + "..." if len(desc) > 500 else desc`. -/
def descTrunc (desc : String) : String :=
  if 500 < desc.length then (⟨desc.data.take 500⟩ : String) ++ "..." else desc

/-- `FilmScraper.extract_description` (lines 578-594). -/
def extract_description (soup : Soup) : Option String :=
  [".review .body-text", ".film-synopsis .body-text", ".truncate p",
    "[data-truncate] p"].findSome?
    (fun sel =>
      match soup.selectOne sel with
      | some elem =>
        let desc := pyStrip elem.textOf
        if desc ≠ "" ∧ 10 < desc.length then some (descTrunc desc) else none
      | none => none)

/-! ## `create_minimal_film_data` and `scrape_film_details` (lines 243-284, 596-621) -/

/-- Python `parts[-2]`. -/
def lastButOne (parts : List String) : String := parts.getD (parts.length - 2) ""

/-- `FilmScraper.create_minimal_film_data(film_url, error_message)`: the
failure record — best-effort title from the url slug
(`str(film_url).split('/')[-2].replace('-', ' ').title()`), every other
metadata field null/empty, `scrape_status = 'failed: <message>'`.
`datetime.now().isoformat()` is the explicit `now`. -/
def create_minimal_film_data (now : String) (film_url : String)
    (error_message : String) : FilmRec :=
  let title :=
    if film_url ≠ "" ∧ film_url ≠ "None" ∧ pyHasChar film_url '/' = true then
      pyTitleCase (pyReplace (lastButOne (pySplitChar film_url '/')) "-" " ")
    else "Unknown"
  { url := film_url, title := title, release_date := none, runtime := none,
    genres := [], directors := [], actors := [], studios := [], language := none,
    country := [], writers := [], composer := none, cinematographer := none,
    average_rating := none, description := none, personal_rating := none,
    scrape_status := "failed: " ++ error_message, last_scraped := now }

/-- The detail-page structure check of `scrape_film_details`: title tag with
a recognizable marker, or an `h1`/film-header element. -/
def has_film_title (soup : Soup) : Bool :=
  match soup.selectOne "title" with
  | some page_title =>
    pyIn "directed by" page_title.textOf || pyIn "Letterboxd" page_title.textOf
  | none => false

def has_film_elements (soup : Soup) : Bool :=
  (soup.selectOne "h1").isSome || (soup.selectOne ".film-header").isSome

/-- `FilmScraper.scrape_film_details(film_url)` (lines 243-284), with the
page acquisition (`self.get_page_content`) abstracted as `getPage` and the
html-to-document parse (`BeautifulSoup`) as `parse`. -/
def scrape_film_details (getPage : String → Option String) (parse : String → Soup)
    (now : String) (film_url : String) : FilmRec :=
  if film_url = "" ∨ film_url = "None" then
    create_minimal_film_data now (if film_url = "" then "Invalid URL" else film_url)
      "Invalid or missing URL"
  else
    match getPage film_url with
    | none => create_minimal_film_data now film_url "Failed to get page content"
    | some html =>
      if html = "" then create_minimal_film_data now film_url "Failed to get page content"
      else
        let soup := parse html
        if ¬ has_film_title soup = true ∧ ¬ has_film_elements soup = true then
          create_minimal_film_data now film_url "Invalid page structure"
        else
          { url := film_url, title := extract_title soup,
            release_date := extract_release_date soup,
            runtime := extract_runtime soup, genres := extract_genres soup,
            directors := extract_directors soup, actors := extract_actors soup,
            studios := extract_studios soup, language := extract_language soup,
            country := extract_country soup, writers := extract_writers soup,
            composer := extract_composer soup,
            cinematographer := extract_cinematographer soup,
            average_rating := extract_average_rating soup,
            description := extract_description soup, personal_rating := none,
            scrape_status := "success", last_scraped := now }

/-! ## Claim C4: shape of the failure record -/

/-- C4: whenever the scrape of a film url fails — invalid url, no HTML
obtainable, or the page failing the detail-page structure check — the
synthesized record is exactly `create_minimal_film_data`'s: `scrape_status`
is `"failed: "` followed by the reason, every metadata field is null/empty,
and the title is the best-effort slug title (hyphens to spaces, words
capitalized; on the claim's own example url
`.../film/some-movie/` it is `"Some Movie"`). -/
theorem spec_C4_failed_record_shape (getPage : String → Option String)
    (parse : String → Soup) (now film_url : String)
    (hfail : film_url = "" ∨ film_url = "None" ∨ getPage film_url = none ∨
      getPage film_url = some "" ∨
      (∃ html, getPage film_url = some html ∧ html ≠ "" ∧
        ¬ has_film_title (parse html) = true ∧
        ¬ has_film_elements (parse html) = true)) :
    (∃ u reason,
      scrape_film_details getPage parse now film_url
        = create_minimal_film_data now u reason ∧
      (if film_url = "" then u = "Invalid URL" else u = film_url)) ∧
    (∀ u reason,
      (create_minimal_film_data now u reason).scrape_status = "failed: " ++ reason ∧
      (create_minimal_film_data now u reason).release_date = none ∧
      (create_minimal_film_data now u reason).runtime = none ∧
      (create_minimal_film_data now u reason).genres = [] ∧
      (create_minimal_film_data now u reason).directors = [] ∧
      (create_minimal_film_data now u reason).actors = [] ∧
      (create_minimal_film_data now u reason).studios = [] ∧
      (create_minimal_film_data now u reason).language = none ∧
      (create_minimal_film_data now u reason).country = [] ∧
      (create_minimal_film_data now u reason).writers = [] ∧
      (create_minimal_film_data now u reason).composer = none ∧
      (create_minimal_film_data now u reason).cinematographer = none ∧
      (create_minimal_film_data now u reason).average_rating = none ∧
      (create_minimal_film_data now u reason).description = none ∧
      (create_minimal_film_data now u reason).title
        = (if u ≠ "" ∧ u ≠ "None" ∧ pyHasChar u '/' = true then
            pyTitleCase (pyReplace (lastButOne (pySplitChar u '/')) "-" " ")
          else "Unknown")) ∧
    (∀ reason,
      (create_minimal_film_data now "https://letterboxd.com/film/some-movie/"
        reason).title = "Some Movie") := by
  refine ⟨?_, fun u reason => ⟨rfl, rfl, rfl, rfl, rfl, rfl, rfl, rfl, rfl, rfl,
    rfl, rfl, rfl, rfl, rfl⟩, fun reason => rfl⟩
  by_cases h1 : film_url = ""
  · refine ⟨"Invalid URL", "Invalid or missing URL", ?_, by simp [h1]⟩
    simp [scrape_film_details, h1]
  · by_cases h2 : film_url = "None"
    · refine ⟨film_url, "Invalid or missing URL", ?_, by simp [h1]⟩
      simp [scrape_film_details, h1, h2]
    · rcases hfail with hfail | hfail | hfail | hfail | hfail
      · exact absurd hfail h1
      · exact absurd hfail h2
      · refine ⟨film_url, "Failed to get page content", ?_, by simp [h1]⟩
        simp [scrape_film_details, h1, h2, hfail]
      · refine ⟨film_url, "Failed to get page content", ?_, by simp [h1]⟩
        simp [scrape_film_details, h1, h2, hfail]
      · obtain ⟨html, hg, hne, hT, hE⟩ := hfail
        refine ⟨film_url, "Invalid page structure", ?_, by simp [h1]⟩
        simp [scrape_film_details, h1, h2, hg, hne, hT, hE]

/-- A document on which every query fails (an empty/unrecognizable page). -/
def emptySoup : Soup :=
  { table := [], text := "", timeSlug := none, ldjsonRatings := [],
    metaAvgRating := none }

theorem spec_C4_witness :
    (∃ u reason, scrape_film_details (fun _ => none) (fun _ => emptySoup)
        "2024-01-01T00:00:00" "https://letterboxd.com/film/some-movie/"
        = create_minimal_film_data "2024-01-01T00:00:00" u reason ∧
      (if ("https://letterboxd.com/film/some-movie/" : String) = ""
       then u = "Invalid URL"
       else u = "https://letterboxd.com/film/some-movie/")) ∧
    (create_minimal_film_data "2024-01-01T00:00:00"
      "https://letterboxd.com/film/some-movie/" "Failed to get page content").title
      = "Some Movie" ∧
    (create_minimal_film_data "2024-01-01T00:00:00"
      "https://letterboxd.com/film/some-movie/" "Failed to get page content").scrape_status
      = "failed: Failed to get page content" := by
  have h := spec_C4_failed_record_shape (fun _ => none) (fun _ => emptySoup)
    "2024-01-01T00:00:00" "https://letterboxd.com/film/some-movie/"
    (Or.inr (Or.inr (Or.inl rfl)))
  exact ⟨h.1, h.2.2 "Failed to get page content",
    (h.2.1 "https://letterboxd.com/film/some-movie/" "Failed to get page content").1⟩

/-! ## Claim C7: cascade failure yields null/empty per field -/

/-- A detail page that PASSES the initial structure check of
`scrape_film_details` (its `.film-header` query answers with `hdr`, so
`has_film_elements` holds) while every other query fails: every
field-extraction cascade finds nothing on it.  No extractor queries the bare
`.film-header` selector, so `hdr` is arbitrary. -/
def structOnlyHeader (hdr : Elem) : Soup :=
  { table := [(".film-header", [hdr])], text := "", timeSlug := none,
    ldjsonRatings := [], metaAvgRating := none }

/-- The concrete instance used by the counterexample. -/
def structOnlySoup : Soup := structOnlyHeader (Elem.node "" [] [] [])

/-- C7 counterexample: a detail page that passes the initial structure check
(`has_film_elements` holds, and the scraped record's status is `success`)
but on which `extract_title`'s whole cascade fails yields the placeholder
string `"Unknown Title"` for the title field — not null/empty as the claim
states. -/
theorem spec_C7_counterexample :
    has_film_elements structOnlySoup = true ∧
    ¬ (¬ has_film_title structOnlySoup = true ∧
        ¬ has_film_elements structOnlySoup = true) ∧
    extract_title structOnlySoup = "Unknown Title" ∧
    ("Unknown Title" : String) ≠ "" ∧
    (scrape_film_details (fun _ => some "<html></html>")
      (fun _ => structOnlySoup) "2024-01-01T00:00:00"
      "https://letterboxd.com/film/x/").scrape_status = "success" ∧
    (scrape_film_details (fun _ => some "<html></html>")
      (fun _ => structOnlySoup) "2024-01-01T00:00:00"
      "https://letterboxd.com/film/x/").title = "Unknown Title" := by
  refine ⟨rfl, by decide, rfl, by decide, rfl, rfl⟩

/-- C7 amended: on every detail page that passes the initial structure check
while every field-extraction cascade finds nothing (the `structOnlyHeader`
family, whose header element is arbitrary), extraction is total and yields
null/empty for every field — except the title, whose cascade failure yields
the placeholder `"Unknown Title"` rather than null/empty — and no field gap
escalates into a whole-record failure: `scrape_film_details` still returns a
`success` record built from exactly those null/empty values. -/
theorem spec_C7_amended (hdr : Elem) :
    (¬ (¬ has_film_title (structOnlyHeader hdr) = true ∧
        ¬ has_film_elements (structOnlyHeader hdr) = true)) ∧
    extract_title (structOnlyHeader hdr) = "Unknown Title" ∧
    extract_release_date (structOnlyHeader hdr) = none ∧
    extract_runtime (structOnlyHeader hdr) = none ∧
    extract_genres (structOnlyHeader hdr) = [] ∧
    extract_directors (structOnlyHeader hdr) = [] ∧
    extract_actors (structOnlyHeader hdr) = [] ∧
    extract_studios (structOnlyHeader hdr) = [] ∧
    extract_language (structOnlyHeader hdr) = none ∧
    extract_country (structOnlyHeader hdr) = [] ∧
    extract_writers (structOnlyHeader hdr) = [] ∧
    extract_composer (structOnlyHeader hdr) = none ∧
    extract_cinematographer (structOnlyHeader hdr) = none ∧
    extract_average_rating (structOnlyHeader hdr) = none ∧
    extract_description (structOnlyHeader hdr) = none ∧
    (∀ (getPage : String → Option String) (parse : String → Soup)
        (now film_url html : String),
      film_url ≠ "" → film_url ≠ "None" → getPage film_url = some html →
      html ≠ "" → parse html = structOnlyHeader hdr →
      scrape_film_details getPage parse now film_url
        = { url := film_url, title := "Unknown Title", release_date := none,
            runtime := none, genres := [], directors := [], actors := [],
            studios := [], language := none, country := [], writers := [],
            composer := none, cinematographer := none, average_rating := none,
            description := none, personal_rating := none,
            scrape_status := "success", last_scraped := now }) := by
  refine ⟨by intro h; exact h.2 rfl, rfl, rfl, rfl, rfl, rfl, rfl, rfl, rfl,
    rfl, rfl, rfl, rfl, rfl, rfl, ?_⟩
  intro getPage parse now film_url html h1 h2 h3 h4 h5
  have hcond : ¬ (film_url = "" ∨ film_url = "None") := by
    rintro (h | h)
    · exact h1 h
    · exact h2 h
  unfold scrape_film_details
  rw [if_neg hcond, h3]
  show (if html = "" then _ else _) = _
  rw [if_neg h4, h5]
  rfl

/-! ## Claim C8: list fields — order and duplicates -/

/-- A fold step that either keeps the accumulator or appends one element not
already present preserves duplicate-freeness. -/
theorem foldl_nodup_of_step {α : Type} (step : List String → α → List String)
    (hstep : ∀ acc x, step acc x = acc ∨ ∃ s, s ∉ acc ∧ step acc x = acc ++ [s]) :
    ∀ (xs : List α) (acc : List String), acc.Nodup → (xs.foldl step acc).Nodup := by
  intro xs
  induction xs with
  | nil => intro acc h; exact h
  | cons x xs ih =>
    intro acc h
    rcases hstep acc x with hx | ⟨s, hs, hx⟩
    · rw [List.foldl_cons, hx]
      exact ih acc h
    · rw [List.foldl_cons, hx]
      refine ih _ ?_
      rw [List.nodup_append]
      exact ⟨h, List.nodup_singleton s, by simpa using hs⟩

/-- A fold step that either keeps the accumulator or appends the image of the
current element produces (past the accumulator) a sublist of the image
stream: encounter order is preserved. -/
theorem foldl_sublist_of_step {α : Type} (f : α → String)
    (step : List String → α → List String)
    (hstep : ∀ acc x, step acc x = acc ∨ step acc x = acc ++ [f x]) :
    ∀ (xs : List α) (acc : List String),
      ∃ t, xs.foldl step acc = acc ++ t ∧ t.Sublist (xs.map f) := by
  intro xs
  induction xs with
  | nil => intro acc; exact ⟨[], by simp, by simp⟩
  | cons x xs ih =>
    intro acc
    rcases hstep acc x with hx | hx
    · obtain ⟨t, h1, h2⟩ := ih acc
      refine ⟨t, ?_, ?_⟩
      · rw [List.foldl_cons, hx]
        exact h1
      · exact h2.cons (f x)
    · obtain ⟨t, h1, h2⟩ := ih (acc ++ [f x])
      refine ⟨f x :: t, ?_, ?_⟩
      · rw [List.foldl_cons, hx, h1, List.append_assoc]
        rfl
      · exact h2.cons₂ (f x)

/-- Nested selector-then-links folds flatten to one fold over the
concatenated link stream. -/
theorem foldl_selectors_flatMap {α β : Type} (g : β → List α)
    (step : List String → α → List String) :
    ∀ (sels : List β) (acc : List String),
      sels.foldl (fun acc sel => (g sel).foldl step acc) acc
        = (sels.flatMap g).foldl step acc := by
  intro sels
  induction sels with
  | nil => intro acc; rfl
  | cons s ss ih =>
    intro acc
    rw [List.foldl_cons, ih, List.flatMap_cons, List.foldl_append]


/-- `collectLoop` with a guard that rejects already-present strings keeps the
accumulator duplicate-free. -/
theorem collectLoop_nodup (keep : String → List String → Prop)
    [inst : ∀ s acc, Decidable (keep s acc)]
    (hkeep : ∀ s acc, keep s acc → s ∉ acc) (links : List Elem)
    (acc : List String) (h : acc.Nodup) : (collectLoop keep links acc).Nodup := by
  unfold collectLoop
  refine foldl_nodup_of_step _ ?_ links acc h
  intro acc link
  by_cases hk : keep (pyStrip link.textOf) acc
  · exact Or.inr ⟨pyStrip link.textOf, hkeep _ _ hk, by simp only [if_pos hk]⟩
  · exact Or.inl (by simp only [if_neg hk])

/-- `collectLoop` appends past the accumulator a sublist of the stripped-text
stream of its links: first-seen order is preserved. -/
theorem collectLoop_sublist (keep : String → List String → Prop)
    [inst : ∀ s acc, Decidable (keep s acc)] (links : List Elem)
    (acc : List String) :
    ∃ t, collectLoop keep links acc = acc ++ t ∧
      t.Sublist (links.map (fun link => pyStrip link.textOf)) := by
  unfold collectLoop
  refine foldl_sublist_of_step (fun link => pyStrip link.textOf) _ ?_ links acc
  intro acc link
  by_cases hk : keep (pyStrip link.textOf) acc
  · exact Or.inr (by simp only [if_pos hk])
  · exact Or.inl (by simp only [if_neg hk])

/-- A selector-cascade of `collectLoop`s is one `collectLoop` over the
concatenated link stream. -/
theorem collectLoop_selectors {β : Type} (keep : String → List String → Prop)
    [inst : ∀ s acc, Decidable (keep s acc)] (g : β → List Elem)
    (sels : List β) (acc : List String) :
    sels.foldl (fun acc sel => collectLoop keep (g sel) acc) acc
      = collectLoop keep (sels.flatMap g) acc := by
  unfold collectLoop
  exact foldl_selectors_flatMap g _ sels acc

/-- C8 amended: on every document the extracted genres, directors, actors,
studios and countries are duplicate-free and preserve first-seen order (each
is a sublist of its selector cascade's stripped-text stream, in encounter
order); the extracted writers also preserve the order of the first two
writer links, but the writers list is NOT deduplicated. -/
theorem spec_C8_amended (soup : Soup) :
    ((extract_genres soup).Nodup ∧
      (extract_genres soup).Sublist
        ((["div#tab-genres a[href*='/films/genre/']", "a[href*='/films/genre/']",
          ".text-slug[href*='/genre/']"].flatMap soup.select).map
          (fun link => pyStrip link.textOf))) ∧
    ((extract_directors soup).Nodup ∧
      (extract_directors soup).Sublist
        ((["a[href*='/director/']", "a[href*='/person/'][title*='Director']",
          ".text-slug[href*='/director/']"].flatMap
            (fun sel => (soup.select sel).take 2)).map
          (fun link => pyStrip link.textOf))) ∧
    ((extract_actors soup).Nodup ∧
      (extract_actors soup).Sublist
        ((actor_links soup).map (fun link => pyStrip link.textOf))) ∧
    ((extract_studios soup).Nodup ∧
      (extract_studios soup).Sublist
        ((soup.select "a[href*='/films/studio/'], a[href*='/studio/']").map
          (fun link => pyStrip link.textOf))) ∧
    ((extract_country soup).Nodup ∧
      (extract_country soup).Sublist
        ((soup.select "a[href*='/films/country/'], a[href*='/country/']").map
          (fun link => pyStrip link.textOf))) ∧
    (extract_writers soup).Sublist
      (((soup.select "a[href*='/writer/']").take 2).map
        (fun link => pyStrip link.textOf)) := by
  refine ⟨⟨?_, ?_⟩, ⟨?_, ?_⟩, ⟨?_, ?_⟩, ⟨?_, ?_⟩, ⟨?_, ?_⟩, ?_⟩
  · unfold extract_genres
    rw [collectLoop_selectors]
    exact List.Nodup.sublist (List.take_sublist _ _)
      (collectLoop_nodup _ (fun s acc h => h.2.2) _ [] List.nodup_nil)
  · unfold extract_genres
    rw [collectLoop_selectors]
    obtain ⟨t, heq, hsub⟩ := collectLoop_sublist
      (fun genre genres => genre ≠ "" ∧ 1 < genre.length ∧ genre ∉ genres)
      (["div#tab-genres a[href*='/films/genre/']", "a[href*='/films/genre/']",
        ".text-slug[href*='/genre/']"].flatMap soup.select) []
    rw [heq]
    simp only [List.nil_append]
    exact (List.take_sublist _ _).trans hsub
  · unfold extract_directors
    rw [collectLoop_selectors]
    exact List.Nodup.sublist (List.take_sublist _ _)
      (collectLoop_nodup _ (fun s acc h => h.2) _ [] List.nodup_nil)
  · unfold extract_directors
    rw [collectLoop_selectors]
    obtain ⟨t, heq, hsub⟩ := collectLoop_sublist
      (fun director directors => director ≠ "" ∧ director ∉ directors)
      (["a[href*='/director/']", "a[href*='/person/'][title*='Director']",
        ".text-slug[href*='/director/']"].flatMap
          (fun sel => (soup.select sel).take 2)) []
    rw [heq]
    simp only [List.nil_append]
    exact (List.take_sublist _ _).trans hsub
  · unfold extract_actors
    exact List.Nodup.sublist (List.take_sublist _ _)
      (collectLoop_nodup _ (fun s acc h => h.2.2) _ [] List.nodup_nil)
  · unfold extract_actors
    obtain ⟨t, heq, hsub⟩ := collectLoop_sublist
      (fun actor actors => actor ≠ "" ∧ 1 < actor.length ∧ actor ∉ actors)
      (actor_links soup) []
    rw [heq]
    simp only [List.nil_append]
    exact (List.take_sublist _ _).trans hsub
  · exact collectLoop_nodup _ (fun s acc h => h.2) _ [] List.nodup_nil
  · unfold extract_studios
    obtain ⟨t, heq, hsub⟩ := collectLoop_sublist
      (fun studio studios => studio ≠ "" ∧ studio ∉ studios)
      (soup.select "a[href*='/films/studio/'], a[href*='/studio/']") []
    rw [heq]
    simp only [List.nil_append]
    exact hsub
  · exact collectLoop_nodup _ (fun s acc h => h.2.1) _ [] List.nodup_nil
  · unfold extract_country
    obtain ⟨t, heq, hsub⟩ := collectLoop_sublist
      (fun country countries =>
        country ≠ "" ∧ country ∉ countries ∧ 2 < country.length ∧ country ≠ "Country")
      (soup.select "a[href*='/films/country/'], a[href*='/country/']") []
    rw [heq]
    simp only [List.nil_append]
    exact hsub
  · unfold extract_writers
    obtain ⟨t, heq, hsub⟩ := collectLoop_sublist (fun writer _ => writer ≠ "")
      ((soup.select "a[href*='/writer/']").take 2) []
    rw [heq]
    simp only [List.nil_append]
    exact hsub

/-- A writer link element whose text is a name (appears twice on the page,
e.g. as writer of both story and screenplay). -/
def writer_elem : Elem := Elem.node "John Doe" [] [] []

/-- A document whose first two writer links carry the same name. -/
def writersDupSoup : Soup :=
  { table := [("a[href*='/writer/']", [writer_elem, writer_elem])], text := "",
    timeSlug := none, ldjsonRatings := [], metaAvgRating := none }

/-- C8 counterexample: `extract_writers` has no duplicate check, so a page
whose first two writer links carry the same name yields a writers list with
a duplicate string — refuting "every list field contains no duplicates". -/
theorem spec_C8_counterexample :
    extract_writers writersDupSoup = ["John Doe", "John Doe"] ∧
    ¬ (extract_writers writersDupSoup).Nodup := by
  refine ⟨rfl, ?_⟩
  intro h
  rw [show extract_writers writersDupSoup = ["John Doe", "John Doe"] from rfl] at h
  simp [List.nodup_cons] at h

/-! ## Claim C9: description length bound -/

/-- A review body element whose stripped text is 501 characters long. -/
def longDescElem : Elem := Elem.node ⟨List.replicate 501 'a'⟩ [] [] []

/-- A document carrying the 501-character description. -/
def longDescSoup : Soup :=
  { table := [(".review .body-text", [longDescElem])], text := "",
    timeSlug := none, ldjsonRatings := [], metaAvgRating := none }

/-- The description the code extracts from it. -/
def longDescResult : String := (⟨List.replicate 500 'a'⟩ : String) ++ "..."

set_option maxRecDepth 8192 in
/-- C9 counterexample: a 501-character source text is truncated to 500
characters *plus* the appended ellipsis, so the extracted description is 503
characters long — not "at most 500 characters" as claimed. -/
theorem spec_C9_counterexample :
    extract_description longDescSoup = some longDescResult ∧
    longDescResult.length = 503 ∧ ¬ longDescResult.length ≤ 500 := by
  refine ⟨rfl, rfl, by decide⟩

/-- C9 amended: an extracted description is at most 503 characters: either
the source text was at most 500 characters and is returned whole, or it
exceeded 500 characters and the result is exactly its first 500 characters
with `"..."` appended (503 characters). -/
theorem descTrunc_spec (desc : String) :
    (descTrunc desc).length ≤ 503 ∧
    ((descTrunc desc).length ≤ 500 ∨
      ∃ s : String, 500 < s.length ∧
        descTrunc desc = (⟨s.data.take 500⟩ : String) ++ "..." ∧
        (descTrunc desc).length = 503) := by
  unfold descTrunc
  by_cases h : 500 < desc.length
  · rw [if_pos h]
    have hlen : ((⟨desc.data.take 500⟩ : String) ++ "...").length = 503 := by
      show (((⟨desc.data.take 500⟩ : String) ++ "...").data).length = 503
      rw [show ((⟨desc.data.take 500⟩ : String) ++ "...").data
          = desc.data.take 500 ++ ['.', '.', '.'] from rfl]
      rw [List.length_append, List.length_take]
      rw [show (['.', '.', '.'] : List Char).length = 3 from rfl]
      have hdl : desc.data.length = desc.length := rfl
      rw [Nat.min_eq_left (by omega)]
    refine ⟨by omega, Or.inr ⟨desc, h, rfl, hlen⟩⟩
  · rw [if_neg h]
    exact ⟨by omega, Or.inl (by omega)⟩

theorem spec_C9_amended (soup : Soup) (d : String)
    (h : extract_description soup = some d) :
    d.length ≤ 503 ∧
    (d.length ≤ 500 ∨
      ∃ s : String, 500 < s.length ∧ d = (⟨s.data.take 500⟩ : String) ++ "..." ∧
        d.length = 503) := by
  unfold extract_description at h
  rw [List.findSome?_eq_some_iff] at h
  obtain ⟨l1, a, l2, _, ha, _⟩ := h
  cases hsel : soup.selectOne a with
  | none =>
    rw [hsel] at ha
    exact absurd ha (by simp)
  | some elem =>
    rw [hsel] at ha
    by_cases hcond : pyStrip elem.textOf ≠ "" ∧ 10 < (pyStrip elem.textOf).length
    · rw [show (match some elem with
          | some elem =>
            let desc := pyStrip elem.textOf
            if desc ≠ "" ∧ 10 < desc.length then some (descTrunc desc) else none
          | none => none)
          = if pyStrip elem.textOf ≠ "" ∧ 10 < (pyStrip elem.textOf).length then
              some (descTrunc (pyStrip elem.textOf)) else none from rfl,
        if_pos hcond] at ha
      have hd : d = descTrunc (pyStrip elem.textOf) := by
        injection ha with h1
        exact h1.symm
      rw [hd]
      exact descTrunc_spec _
    · rw [show (match some elem with
          | some elem =>
            let desc := pyStrip elem.textOf
            if desc ≠ "" ∧ 10 < desc.length then some (descTrunc desc) else none
          | none => none)
          = if pyStrip elem.textOf ≠ "" ∧ 10 < (pyStrip elem.textOf).length then
              some (descTrunc (pyStrip elem.textOf)) else none from rfl,
        if_neg hcond] at ha
      exact absurd ha (by simp)

set_option maxRecDepth 8192 in
theorem spec_C9_amended_witness :
    extract_description longDescSoup = some longDescResult ∧
    longDescResult.length ≤ 503 :=
  ⟨rfl, (spec_C9_amended longDescSoup longDescResult rfl).1⟩

/-! ## `collect_all_films` / `parse_films_from_html` (lines 1056-1304) -/

/-- Python `a or b` on optional attribute strings: the first truthy value. -/
def pyOrOpt (a b : Option String) : Option String :=
  match a with
  | some s => if s ≠ "" then some s else b
  | none => b

/-- Truthiness of an optional string (`None` and `""` are falsy). -/
def optTruthy : Option String → Bool
  | some s => s ≠ ""
  | none => false

/-- The film-container cascade of `parse_films_from_html` (lines 1109-1119):
the first selector with any matches wins. -/
def film_containers (soup : Soup) : List Elem :=
  let c1 := soup.select "li.griditem"
  if ¬ c1.isEmpty then c1 else
  let c2 := soup.select "li.poster-container"
  if ¬ c2.isEmpty then c2 else
  let c3 := soup.select "ul.poster-list > li"
  if ¬ c3.isEmpty then c3 else
  let c4 := soup.select "div.react-component[data-component-class='LazyPoster']"
  if ¬ c4.isEmpty then c4 else
  soup.select "li[data-film-id]"

/-- The griditem/react branch (lines 1126-1131): url from `data-item-link`,
title from `data-item-name` or `data-item-full-display-name`. -/
def reactUrlTitle (c : Elem) : Option String × Option String :=
  match c.selectOne "div.react-component[data-item-link]" with
  | some react_component =>
    match react_component.get "data-item-link" with
    | some item_link =>
      if item_link ≠ "" then
        (some ("https://letterboxd.com" ++ item_link),
          pyOrOpt (react_component.get "data-item-name")
            (react_component.get "data-item-full-display-name"))
      else (none, none)
    | none => (none, none)
  | none => (none, none)

/-- The anchor choice of the fallback branch (lines 1134-1139): `a.frame`,
then `div.film-poster a`, then any `a`. -/
def fallback_link_tag (c : Elem) : Option Elem :=
  match c.selectOne "a.frame" with
  | some lt => some lt
  | none =>
    match c.selectOne "div.film-poster a" with
    | some lt => some lt
    | none => c.selectOne "a"

/-- The title cascade of the fallback branch (lines 1143-1153), reached only
when the anchor's href was truthy. -/
def fallbackTitle (c : Elem) (link_tag : Elem) : Option String :=
  if optTruthy (c.get "data-item-name") then c.get "data-item-name"
  else if optTruthy (link_tag.get "data-original-title") then
    link_tag.get "data-original-title"
  else if optTruthy (link_tag.get "title") then link_tag.get "title"
  else
    match c.selectOne "img" with
    | some img => img.get "alt"
    | none => some (pyStrip link_tag.textOf)

/-- The link-tag fallback branch (lines 1134-1153): url from the first
anchor's `href`, title from the attribute/alt/text cascade. -/
def fallbackUrlTitle (c : Elem) : Option String × Option String :=
  match fallback_link_tag c with
  | some link_tag =>
    match link_tag.get "href" with
    | some href =>
      if href ≠ "" then
        (some ("https://letterboxd.com" ++ href), fallbackTitle c link_tag)
      else (none, none)
    | none => (none, none)
  | none => (none, none)

/-- url/title of one container: the react branch when it produced a url,
else the fallback branch (`if not film_url:`). -/
def containerUrlTitle (c : Elem) : Option String × Option String :=
  if (reactUrlTitle c).1.isSome then reactUrlTitle c else fallbackUrlTitle c

/-- The inline personal rating (lines 1156-1184): first rating span whose
first `rated-N` class parses; `N` out of 10 is halved to the 5-point scale.
A span whose first `rated-` class fails `int()` contributes nothing and the
scan moves to the next span. -/
def containerRating (c : Elem) : Option ℚ :=
  let rating_spans :=
    let s1 := c.select "span.rating"
    if ¬ s1.isEmpty then s1 else c.select "span[class*=\"rated-\"]"
  rating_spans.findSome? (fun rating_span =>
    match rating_span.classesOf.find? (fun cls => pyStartsWith cls "rated-") with
    | some cls =>
      match pyInt? (pyReplace cls "rated-" "") with
      | some rating_10 => some ((rating_10 : ℚ) / 2)
      | none => none
    | none => none)

/-- One container's entry: appended only when both url and title are truthy
(`if film_url and title:`, line 1186). -/
def parseContainer (c : Elem) : Option CatFilm :=
  match containerUrlTitle c with
  | (some film_url, some title) =>
    if film_url ≠ "" ∧ title ≠ "" then
      some { title := title, url := film_url, personal_rating := containerRating c }
    else none
  | _ => none

/-- `parse_films_from_html(html)` (lines 1104-1199): empty on falsy html,
else the parsed entries of the container cascade in document order.  The
html-to-document parse (BeautifulSoup) is abstracted, so the input is the
parsed document (`none` for falsy html). -/
def parse_films_from_html : Option Soup → List CatFilm
  | none => []
  | some soup => (film_containers soup).filterMap parseContainer

/-! ## Claim C10: parsed entries carry an absolute url and a title -/

theorem isPrefixOf_append_self (l1 l2 : List Char) : l1.isPrefixOf (l1 ++ l2) = true := by
  induction l1 with
  | nil => cases l2 <;> rfl
  | cons x xs ih => simp [List.isPrefixOf, ih]

theorem pyStartsWith_append (a b : String) : pyStartsWith (a ++ b) a = true := by
  unfold pyStartsWith
  rw [show (a ++ b).data = a.data ++ b.data from rfl]
  exact isPrefixOf_append_self a.data b.data

theorem reactUrlTitle_url {c : Elem} {u : String}
    (h : (reactUrlTitle c).1 = some u) : ∃ s, u = "https://letterboxd.com" ++ s := by
  unfold reactUrlTitle at h
  split at h
  · split at h
    · split at h
      · next item_link _ _ =>
          refine ⟨item_link, ?_⟩
          simpa using h.symm
      · simp at h
    · simp at h
  · simp at h

theorem fallbackUrlTitle_url {c : Elem} {u : String}
    (h : (fallbackUrlTitle c).1 = some u) : ∃ s, u = "https://letterboxd.com" ++ s := by
  unfold fallbackUrlTitle at h
  split at h
  · split at h
    · split at h
      · next href _ _ =>
          refine ⟨href, ?_⟩
          simpa using h.symm
      · simp at h
    · simp at h
  · simp at h

theorem containerUrlTitle_url {c : Elem} {u : String}
    (h : (containerUrlTitle c).1 = some u) :
    ∃ s, u = "https://letterboxd.com" ++ s := by
  unfold containerUrlTitle at h
  by_cases hr : (reactUrlTitle c).1.isSome
  · rw [if_pos hr] at h
    exact reactUrlTitle_url h
  · rw [if_neg hr] at h
    exact fallbackUrlTitle_url h

/-- C10: every entry `parse_films_from_html` returns carries a non-empty
absolute film url (prefixed by the site origin) and a non-empty title; a
container from which no url or no title can be derived contributes no
entry. -/
theorem spec_C10_parse_entry_invariant (soup : Soup) :
    ∀ f ∈ parse_films_from_html (some soup),
      f.url ≠ "" ∧ pyStartsWith f.url "https://letterboxd.com" = true ∧
      f.title ≠ "" := by
  intro f hf
  simp only [parse_films_from_html, List.mem_filterMap] at hf
  obtain ⟨c, _, hc⟩ := hf
  unfold parseContainer at hc
  split at hc
  · next film_url title heq =>
      split at hc
      · next hcond =>
          have hfeq : f = ⟨title, film_url, containerRating c⟩ := by
            injection hc with h1
            exact h1.symm
          have hu : (containerUrlTitle c).1 = some film_url := by rw [heq]
          obtain ⟨s, hs⟩ := containerUrlTitle_url hu
          subst hfeq
          refine ⟨hcond.1, ?_, hcond.2⟩
          show pyStartsWith film_url "https://letterboxd.com" = true
          rw [hs]
          exact pyStartsWith_append _ _
      · exact absurd hc (by simp)
  · exact absurd hc (by simp)

/-- Anchor of a film container linking `/film/Movie/`. -/
def film_a_upper : Elem := Elem.node "Movie" [("href", "/film/Movie/")] [] []

/-- Anchor of a film container linking `/film/movie/` (same url up to
casing). -/
def film_a_lower : Elem := Elem.node "Movie" [("href", "/film/movie/")] [] []

/-- Containers holding just those anchors. -/
def container_upper : Elem := Elem.node "" [] [] [("a", [film_a_upper])]

def container_lower : Elem := Elem.node "" [] [] [("a", [film_a_lower])]

/-- A listing page whose two film containers link the same film url up to
letter casing. -/
def listingSoup : Soup :=
  { table := [("li.griditem", [container_upper, container_lower])], text := "",
    timeSlug := none, ldjsonRatings := [], metaAvgRating := none }

theorem spec_C10_witness :
    (⟨"Movie", "https://letterboxd.com/film/Movie/", none⟩ : CatFilm)
      ∈ parse_films_from_html (some listingSoup) ∧
    ("https://letterboxd.com/film/Movie/" : String) ≠ "" ∧
    pyStartsWith "https://letterboxd.com/film/Movie/" "https://letterboxd.com" = true ∧
    ("Movie" : String) ≠ "" := by
  have hm : (⟨"Movie", "https://letterboxd.com/film/Movie/", none⟩ : CatFilm)
      ∈ parse_films_from_html (some listingSoup) := by
    rw [show parse_films_from_html (some listingSoup)
        = [(⟨"Movie", "https://letterboxd.com/film/Movie/", none⟩ : CatFilm),
           (⟨"Movie", "https://letterboxd.com/film/movie/", none⟩ : CatFilm)] from rfl]
    exact List.mem_cons_self _ _
  have h := spec_C10_parse_entry_invariant listingSoup _ hm
  exact ⟨hm, h.1, h.2.1, h.2.2⟩

/-! ## Claim C6: discoverer dedup -/

/-- The dedup loop of `collect_all_films` (lines 1246-1253): a `seen` url
set and the kept films, first occurrence per exact url string, in encounter
order. -/
def dedup_films_by_url (all_films : List CatFilm) : List CatFilm :=
  (all_films.foldl
    (fun st f => if f.url ∈ st.1 then st else (st.1 ++ [f.url], st.2 ++ [f]))
    (([], []) : List String × List CatFilm)).2

/-- The discoverer on already-fetched pages: per-page parsed entries
concatenated (the worker pool appends page results in completion order; the
list order models one such order — dedup is per exact url, hence
order-independent in what survives), then deduplicated by url. -/
def collect_unique_films (pages : List (Option Soup)) : List CatFilm :=
  dedup_films_by_url (pages.flatMap parse_films_from_html)

theorem dedup_aux_invariant :
    ∀ (films : List CatFilm) (seen : List String) (out : List CatFilm),
      seen = out.map (fun f => f.url) → seen.Nodup →
      (films.foldl
          (fun st f => if f.url ∈ st.1 then st else (st.1 ++ [f.url], st.2 ++ [f]))
          (seen, out)).1
        = ((films.foldl
          (fun st f => if f.url ∈ st.1 then st else (st.1 ++ [f.url], st.2 ++ [f]))
          (seen, out)).2).map (fun f => f.url) ∧
      ((films.foldl
          (fun st f => if f.url ∈ st.1 then st else (st.1 ++ [f.url], st.2 ++ [f]))
          (seen, out)).1).Nodup ∧
      (∀ u, u ∈ (films.foldl
          (fun st f => if f.url ∈ st.1 then st else (st.1 ++ [f.url], st.2 ++ [f]))
          (seen, out)).1 ↔ u ∈ seen ∨ u ∈ films.map (fun f => f.url)) := by
  intro films
  induction films with
  | nil =>
    intro seen out h1 h2
    exact ⟨h1, h2, fun u => by simp⟩
  | cons f fs ih =>
    intro seen out h1 h2
    rw [List.foldl_cons]
    by_cases hf : f.url ∈ seen
    · rw [show (if f.url ∈ (seen, out).1 then (seen, out)
          else ((seen, out).1 ++ [f.url], (seen, out).2 ++ [f])) = (seen, out)
          from if_pos hf]
      obtain ⟨a, b, c⟩ := ih seen out h1 h2
      refine ⟨a, b, fun u => ?_⟩
      rw [c u]
      constructor
      · rintro (h | h)
        · exact Or.inl h
        · exact Or.inr (by simp [h])
      · rintro (h | h)
        · exact Or.inl h
        · rcases List.mem_map.mp h with ⟨g, hg, hgu⟩
          rcases List.mem_cons.mp hg with hg | hg
          · refine Or.inl ?_
            rw [hg] at hgu
            exact hgu ▸ hf
          · exact Or.inr (List.mem_map.mpr ⟨g, hg, hgu⟩)
    · rw [show (if f.url ∈ (seen, out).1 then (seen, out)
          else ((seen, out).1 ++ [f.url], (seen, out).2 ++ [f]))
          = (seen ++ [f.url], out ++ [f]) from if_neg hf]
      have h1n : seen ++ [f.url] = (out ++ [f]).map (fun g => g.url) := by
        rw [List.map_append, ← h1]
        rfl
      have h2n : (seen ++ [f.url]).Nodup := by
        rw [List.nodup_append]
        exact ⟨h2, List.nodup_singleton _, by simpa using hf⟩
      obtain ⟨a, b, c⟩ := ih (seen ++ [f.url]) (out ++ [f]) h1n h2n
      refine ⟨a, b, fun u => ?_⟩
      rw [c u]
      constructor
      · rintro (h | h)
        · rcases List.mem_append.mp h with h | h
          · exact Or.inl h
          · have hu : u = f.url := by simpa using h
            exact Or.inr (List.mem_map.mpr ⟨f, List.mem_cons_self f fs, hu.symm⟩)
        · exact Or.inr (by simp [h])
      · rintro (h | h)
        · exact Or.inl (List.mem_append_left _ h)
        · rcases List.mem_map.mp h with ⟨g, hg, hgu⟩
          rcases List.mem_cons.mp hg with hg | hg
          · refine Or.inl (List.mem_append_right _ ?_)
            rw [hg] at hgu
            simp [hgu.symm]
          · exact Or.inr (List.mem_map.mpr ⟨g, hg, hgu⟩)

/-- C6 amended: the discoverer's dedup is by exact url string equality, with
no normalization: the returned list holds exactly one entry per exact url
string occurring in the parsed pages — occurrences differing only in letter
casing or a trailing slash count as distinct urls and all survive. -/
theorem spec_C6_amended (pages : List (Option Soup)) :
    ((collect_unique_films pages).map (fun f => f.url)).Nodup ∧
    (∀ u, u ∈ (collect_unique_films pages).map (fun f => f.url) ↔
      u ∈ (pages.flatMap parse_films_from_html).map (fun f => f.url)) := by
  obtain ⟨h1, h2, h3⟩ := dedup_aux_invariant (pages.flatMap parse_films_from_html)
    [] [] rfl List.nodup_nil
  constructor
  · rw [collect_unique_films, dedup_films_by_url, ← h1]
    exact h2
  · intro u
    rw [collect_unique_films, dedup_films_by_url, ← h1, h3 u]
    simp

/-- Modelled from the spec: the normalization of "different casing/trailing
slash variants" the claim asserts for the dedup — lower-case the url and
drop a trailing slash.  `collect_all_films` itself performs no such
normalization; this definition exists only to state the claim. -/
def specNormalizeUrl (u : String) : String :=
  pyLower (if pyEndsWith u "/" = true then (⟨u.data.dropLast⟩ : String) else u)

/-- C6 counterexample: a listing whose two containers link the same film url
up to letter casing yields TWO entries — the dedup is by exact string, there
is no casing/trailing-slash normalization, so the output does not contain
exactly one entry for that (normalized) url. -/
theorem spec_C6_counterexample :
    (collect_unique_films [some listingSoup]).map (fun f => f.url)
      = ["https://letterboxd.com/film/Movie/", "https://letterboxd.com/film/movie/"] ∧
    specNormalizeUrl "https://letterboxd.com/film/Movie/"
      = specNormalizeUrl "https://letterboxd.com/film/movie/" ∧
    (collect_unique_films [some listingSoup]).countP
      (fun f => specNormalizeUrl f.url
        == specNormalizeUrl "https://letterboxd.com/film/Movie/") = 2 := by
  exact ⟨rfl, rfl, rfl⟩

end LetterboxdNew
